import Mathlib

/-!
Verification of the assembly constraint resolver, mate transform calculator and
exploded-view interpolation of the simvex 3D viewer.

The TypeScript sources are shallowly embedded:
JavaScript numbers are modelled as exact rationals (or reals where the code
calls sqrt), the ES Map as an insertion-ordered association list, and the
stateful resolver class as explicit state passing.  The recursive
resolvePosition method is given a fuel parameter bounding the recursion depth
(the JS call stack); a result of none models the stack overflow that a cyclic
constraint graph produces.  A second, reference-level model with an explicit
heap captures which operations return clones and which return live references.
-/

namespace Simvex

/-- Insertion-ordered string-keyed association list, modelling the ES Map
used by the resolver (set replaces in place or appends, delete removes). -/
def SMap (A : Type) : Type := List (String × A)

namespace SMap

/-- Map.get: first (unique) entry with the given key. -/
def lookup {A : Type} (k : String) : List (String × A) → Option A
  | [] => none
  | e :: rest => if e.1 = k then some e.2 else lookup k rest

/-- Map.set: replace in place if the key exists, else append. -/
def insert {A : Type} (k : String) (v : A) : List (String × A) → List (String × A)
  | [] => [(k, v)]
  | e :: rest => if e.1 = k then (k, v) :: rest else e :: insert k v rest

/-- Map.delete: remove the entry with the given key. -/
def eraseKey {A : Type} (k : String) : List (String × A) → List (String × A)
  | [] => []
  | e :: rest => if e.1 = k then rest else e :: eraseKey k rest

end SMap

/-- THREE.Vector3 with exact rational coordinates. -/
structure Vec3 where
  x : ℚ
  y : ℚ
  z : ℚ
deriving DecidableEq

/-- The zero vector, new THREE.Vector3(0, 0, 0). -/
def Vec3.zero : Vec3 := ⟨0, 0, 0⟩

/-- Vector3.add (componentwise). -/
def Vec3.add (a b : Vec3) : Vec3 := ⟨a.x + b.x, a.y + b.y, a.z + b.z⟩

/-- Vector3.multiplyScalar. -/
def Vec3.smul (k : ℚ) (v : Vec3) : Vec3 := ⟨k * v.x, k * v.y, k * v.z⟩

/-- THREE.Box3: axis-aligned bounding box given by min and max corners. -/
structure Box3 where
  min : Vec3
  max : Vec3
deriving DecidableEq

/-- THREE.Box3.getSize: zero for an empty box (some max component below the
corresponding min component), otherwise max minus min componentwise. -/
def Box3.getSize (b : Box3) : Vec3 :=
  if b.max.x < b.min.x ∨ b.max.y < b.min.y ∨ b.max.z < b.min.z then Vec3.zero
  else ⟨b.max.x - b.min.x, b.max.y - b.min.y, b.max.z - b.min.z⟩

/-- Scaling of the cached box: box.min.multiplyScalar(s); box.max.multiplyScalar(s). -/
def Box3.scale (b : Box3) (k : ℚ) : Box3 := ⟨Vec3.smul k b.min, Vec3.smul k b.max⟩

/-- AssemblyConstraint from src/types/index.ts.  The type tag is kept as a
string: the runtime values come from an external AI service, so the default
switch branch for unknown tags is reachable. -/
structure AssemblyConstraint where
  type : String
  parentPart : Option String := none
  offset : Option Vec3 := none
  threadedOn : Option String := none
  threadDepth : Option ℚ := none
  centerPart : Option String := none
  angle : Option ℚ := none
  radius : Option ℚ := none
deriving DecidableEq

/-- MachineryPart from src/types/index.ts (fields the resolver and the
explode layer read). -/
structure MachineryPart where
  name : String
  file : String := ""
  position : Option Vec3 := none
  assemblyOffset : Option Vec3 := none
  explodeDirection : Option Vec3 := none
  isGround : Option Bool := none
  constraint : Option AssemblyConstraint := none
deriving DecidableEq

/-- A loaded THREE.Object3D, modelled by its intrinsic bounding box: the box
that new THREE.Box3().setFromObject(mesh) measures after registerMesh has
temporarily reset the mesh scale to (1, 1, 1). -/
structure Mesh where
  rawBox : Box3
deriving DecidableEq

/-- Math.cos((angle * PI) / 180) and Math.sin((angle * PI) / 180) of
resolveRadial, treated as an abstract math-library oracle (spec section 2:
geometry primitives are assumed from a math library).  No claim below
depends on the oracle values. -/
structure Trig where
  cosDeg : ℚ → ℚ
  sinDeg : ℚ → ℚ

/-- The four caches of the AssemblyConstraintResolver class. -/
structure Resolver where
  parts : List (String × MachineryPart)
  resolvedPositions : List (String × Vec3)
  meshCache : List (String × Mesh)
  boundingBoxCache : List (String × Box3)
deriving DecidableEq

/-- new AssemblyConstraintResolver(parts): the registry is keyed by part name. -/
def Resolver.create (parts : List MachineryPart) : Resolver :=
  { parts := parts.foldl (fun m p => SMap.insert p.name p m) []
    resolvedPositions := []
    meshCache := []
    boundingBoxCache := [] }

/-- updatePartConstraint(partName, constraint): if the part exists, replace its
constraint and delete only its cached resolved position; otherwise log a
warning and leave every cache unchanged. -/
def Resolver.updatePartConstraint (s : Resolver) (partName : String)
    (constraint : AssemblyConstraint) : Resolver :=
  match SMap.lookup partName s.parts with
  | some part =>
    { s with
      parts := SMap.insert partName { part with constraint := some constraint } s.parts
      resolvedPositions := SMap.eraseKey partName s.resolvedPositions }
  | none => s

/-- registerMesh(partName, mesh, logicalScale): record the mesh, measure its
raw (unit-scale) bounding box, apply the logical scale to the box when it is
not 1, cache the box, and clear the whole resolved-position cache. -/
def Resolver.registerMesh (s : Resolver) (partName : String) (mesh : Mesh)
    (logicalScale : ℚ) : Resolver :=
  let box := mesh.rawBox
  let box := if logicalScale ≠ 1 then box.scale logicalScale else box
  { s with
    meshCache := SMap.insert partName mesh s.meshCache
    boundingBoxCache := SMap.insert partName box s.boundingBoxCache
    resolvedPositions := [] }

/-- setGlobalScale(scale): re-measure every registered mesh under the new
scale and clear the resolved-position cache. -/
def Resolver.setGlobalScale (s : Resolver) (scale : ℚ) : Resolver :=
  { s with
    boundingBoxCache :=
      s.meshCache.foldl (fun bc e => SMap.insert e.1 (e.2.rawBox.scale scale) bc)
        s.boundingBoxCache
    resolvedPositions := [] }

/-- getPartSize: size of the cached bounding box, zero vector (with a logged
warning) when the box is not cached. -/
def Resolver.getPartSize (s : Resolver) (partName : String) : Vec3 :=
  match SMap.lookup partName s.boundingBoxCache with
  | none => Vec3.zero
  | some box => box.getSize

/-- getPartHeight: the y component of getPartSize. -/
def Resolver.getPartHeight (s : Resolver) (partName : String) : ℚ :=
  (s.getPartSize partName).y

/-- getBoundingBox(partName): returns the cache entry itself. -/
def Resolver.getBoundingBox (s : Resolver) (partName : String) : Option Box3 :=
  SMap.lookup partName s.boundingBoxCache

/-- getAllBoundingBoxes(): per cached part, a clone of the box and its size. -/
def Resolver.getAllBoundingBoxes (s : Resolver) : List (String × Box3 × Vec3) :=
  s.boundingBoxCache.map (fun e => (e.1, e.2, e.2.getSize))

/-- clearCache(): drop all three caches. -/
def Resolver.clearCache (s : Resolver) : Resolver :=
  { s with resolvedPositions := [], meshCache := [], boundingBoxCache := [] }

/-- The private method resolveStackedOn(part, constraint).  The recur
parameter is the this.resolvePosition call on the parent (one stack frame
deeper).  Error cases (missing parentPart field, unregistered parent) return
the zero vector non-fatally; a missing parent box falls back to parent
position plus getPartHeight; otherwise child bottom is aligned flush with
parent top, a nonzero manual Y offset overriding the flush value entirely. -/
def Resolver.resolveStackedOn (recur : Resolver → MachineryPart → Option (Vec3 × Resolver))
    (s : Resolver) (part : MachineryPart) (c : AssemblyConstraint) :
    Option (Vec3 × Resolver) :=
  match c.parentPart with
  | none => some (Vec3.zero, s)
  | some parentName =>
    match SMap.lookup parentName s.parts with
    | none => some (Vec3.zero, s)
    | some parentPart =>
      match recur s parentPart with
      | none => none
      | some (parentPos, s1) =>
        match SMap.lookup parentName s1.boundingBoxCache with
        | none =>
          -- fallback when the parent box is missing
          let height := s1.getPartHeight parentName
          let manualOffset := c.offset.getD Vec3.zero
          some (parentPos.add ⟨manualOffset.x, height + manualOffset.y, manualOffset.z⟩, s1)
        | some parentBox =>
          let parentTopY := parentBox.max.y
          let childBottomY :=
            match SMap.lookup part.name s1.boundingBoxCache with
            | some childBox => childBox.min.y
            | none => 0
          let manualOffset := c.offset.getD Vec3.zero
          let autoOffsetY := parentTopY - childBottomY
          let finalOffsetY := if manualOffset.y ≠ 0 then manualOffset.y else autoOffsetY
          some (parentPos.add ⟨manualOffset.x, finalOffsetY, manualOffset.z⟩, s1)

/-- The private method resolveThreaded(part, constraint): rod position plus
rod height times thread depth (default one half) on Y, plus manual offset. -/
def Resolver.resolveThreaded (recur : Resolver → MachineryPart → Option (Vec3 × Resolver))
    (s : Resolver) (_part : MachineryPart) (c : AssemblyConstraint) :
    Option (Vec3 × Resolver) :=
  match c.threadedOn with
  | none => some (Vec3.zero, s)
  | some threadedPartName =>
    match SMap.lookup threadedPartName s.parts with
    | none => some (Vec3.zero, s)
    | some threadedPart =>
      match recur s threadedPart with
      | none => none
      | some (rodPos, s1) =>
        let rodHeight := s1.getPartHeight threadedPartName
        let depth := c.threadDepth.getD (1 / 2)
        let offset := c.offset.getD Vec3.zero
        some ((rodPos.add ⟨0, rodHeight * depth, 0⟩).add offset, s1)

/-- The private method resolveRadial(part, constraint): center position plus
radius times (cos angle, 0, sin angle), plus manual offset. -/
def Resolver.resolveRadial (tr : Trig)
    (recur : Resolver → MachineryPart → Option (Vec3 × Resolver))
    (s : Resolver) (_part : MachineryPart) (c : AssemblyConstraint) :
    Option (Vec3 × Resolver) :=
  match c.centerPart with
  | none => some (Vec3.zero, s)
  | some centerPartName =>
    match SMap.lookup centerPartName s.parts with
    | none => some (Vec3.zero, s)
    | some centerPart =>
      match recur s centerPart with
      | none => none
      | some (centerPos, s1) =>
        let angle := c.angle.getD 0
        let radius := c.radius.getD 5
        let offset := c.offset.getD Vec3.zero
        let px := tr.cosDeg angle * radius
        let pz := tr.sinDeg angle * radius
        some ((centerPos.add ⟨px, 0, pz⟩).add offset, s1)

/-- resolvePosition(part).  Fuel bounds the recursion depth; none models the
stack overflow a cyclic constraint graph causes.  A cache hit returns the
cached value; otherwise the constraint is dispatched on its type tag (the
default branch logs a warning and yields the zero vector), and the computed
position is cached under the part name before a clone is returned. -/
def Resolver.resolvePosition (tr : Trig) : Nat → Resolver → MachineryPart →
    Option (Vec3 × Resolver)
  | 0, _, _ => none
  | fuel + 1, s, part =>
    match SMap.lookup part.name s.resolvedPositions with
    | some v => some (v, s)
    | none =>
      match part.constraint with
      | none =>
        let pos := part.assemblyOffset.getD Vec3.zero
        some (pos, { s with resolvedPositions := SMap.insert part.name pos s.resolvedPositions })
      | some c =>
        let res : Option (Vec3 × Resolver) :=
          if c.type = "Fixed" then
            some (c.offset.getD Vec3.zero, s)
          else if c.type = "StackedOn" then
            Resolver.resolveStackedOn (fun s3 p3 => Resolver.resolvePosition tr fuel s3 p3) s part c
          else if c.type = "Threaded" then
            Resolver.resolveThreaded (fun s3 p3 => Resolver.resolvePosition tr fuel s3 p3) s part c
          else if c.type = "RadialAroundCenter" then
            Resolver.resolveRadial tr (fun s3 p3 => Resolver.resolvePosition tr fuel s3 p3) s part c
          else
            -- default: unknown constraint type, warn and return zero
            some (Vec3.zero, s)
        match res with
        | none => none
        | some (position, s1) =>
          some (position, { s1 with resolvedPositions := SMap.insert part.name position s1.resolvedPositions })

/-- The loop body of resolveAll: resolve each registry entry in order. -/
def Resolver.resolveAllGo (tr : Trig) (fuel : Nat) :
    List (String × MachineryPart) → Resolver → Option Resolver
  | [], s => some s
  | e :: rest, s =>
    match Resolver.resolvePosition tr fuel s e.2 with
    | none => none
    | some (_, s1) => Resolver.resolveAllGo tr fuel rest s1

/-- resolveAll(): clear the resolved-position cache, resolve every registered
part, and return new Map(resolvedPositions) together with the final state. -/
def Resolver.resolveAll (tr : Trig) (fuel : Nat) (s : Resolver) :
    Option (List (String × Vec3) × Resolver) :=
  match Resolver.resolveAllGo tr fuel s.parts { s with resolvedPositions := [] } with
  | none => none
  | some s1 => some (s1.resolvedPositions, s1)

/-! Exploded-view interpolation, src/hooks/useModelAnimations.ts.  The
direction is normalised with Math.sqrt, so this part of the embedding lives
over the reals. -/

/-- THREE.Vector3 over the reals, for the explode and mate calculators. -/
structure VecR where
  x : ℝ
  y : ℝ
  z : ℝ

/-- Vector3.length. -/
noncomputable def VecR.length (v : VecR) : ℝ :=
  Real.sqrt (v.x * v.x + v.y * v.y + v.z * v.z)

/-- Vector3.normalize: divideScalar(length or 1), so the zero vector is left
unchanged. -/
noncomputable def VecR.normalize (v : VecR) : VecR :=
  if v.length = 0 then v
  else ⟨v.x / v.length, v.y / v.length, v.z / v.length⟩

/-- Vector3.sub (componentwise). -/
noncomputable def VecR.sub (a b : VecR) : VecR := ⟨a.x - b.x, a.y - b.y, a.z - b.z⟩

/-- Vector3.add (componentwise). -/
noncomputable def VecR.add (a b : VecR) : VecR := ⟨a.x + b.x, a.y + b.y, a.z + b.z⟩

/-- Vector3.multiplyScalar. -/
noncomputable def VecR.smul (k : ℝ) (v : VecR) : VecR := ⟨v.x * k, v.y * k, v.z * k⟩

/-- Vector3.dot. -/
noncomputable def VecR.dot (a b : VecR) : ℝ := a.x * b.x + a.y * b.y + a.z * b.z

/-- Vector3.negate. -/
noncomputable def VecR.neg (v : VecR) : VecR := ⟨-v.x, -v.y, -v.z⟩

/-- calculateExplodePosition from useModelAnimations: the position offset of a
part at explode factor f.  Ground parts stay fixed at the zero offset; other
parts move along their (normalised) explode direction, falling back to the
radial direction from the assembly centre, and further to straight up when
that radial direction is degenerate. -/
noncomputable def calculateExplodePosition (originalPos center : VecR) (factor : ℝ)
    (explodeDirection : Option VecR) (isGround : Option Bool) : VecR :=
  if isGround.getD false then ⟨0, 0, 0⟩
  else
    let direction : VecR :=
      match explodeDirection with
      | some d => d.normalize
      | none =>
        let d := (originalPos.sub center).normalize
        if d.length = 0 then ⟨0, 1, 0⟩ else d
    let explodeDistance := factor * 150
    VecR.smul explodeDistance direction

/-! Mate transform calculator, src/utils/mateTransform.ts. -/

/-- THREE.Quaternion. -/
structure QuatR where
  x : ℝ
  y : ℝ
  z : ℝ
  w : ℝ

/-- Quaternion.length. -/
noncomputable def QuatR.length (q : QuatR) : ℝ :=
  Real.sqrt (q.x * q.x + q.y * q.y + q.z * q.z + q.w * q.w)

/-- Quaternion.normalize: the zero quaternion becomes the identity, anything
else is divided by its length. -/
noncomputable def QuatR.normalize (q : QuatR) : QuatR :=
  if q.length = 0 then ⟨0, 0, 0, 1⟩
  else ⟨q.x / q.length, q.y / q.length, q.z / q.length, q.w / q.length⟩

/-- Number.EPSILON, the float64 machine epsilon, as an exact real. -/
noncomputable def numberEpsilon : ℝ := 1 / 2 ^ 52

/-- Quaternion.setFromUnitVectors(vFrom, vTo): the minimal rotation taking
vFrom to vTo, with the antiparallel case picking an arbitrary orthogonal
axis, followed by normalisation. -/
noncomputable def QuatR.setFromUnitVectors (vFrom vTo : VecR) : QuatR :=
  let r := vFrom.dot vTo + 1
  let q : QuatR :=
    if r < numberEpsilon then
      if |vFrom.x| > |vFrom.z| then ⟨-vFrom.y, vFrom.x, 0, 0⟩
      else ⟨0, -vFrom.z, vFrom.y, 0⟩
    else
      ⟨vFrom.y * vTo.z - vFrom.z * vTo.y,
       vFrom.z * vTo.x - vFrom.x * vTo.z,
       vFrom.x * vTo.y - vFrom.y * vTo.x, r⟩
  q.normalize

/-- Vector3.applyQuaternion. -/
noncomputable def VecR.applyQuaternion (v : VecR) (q : QuatR) : VecR :=
  let tx := 2 * (q.y * v.z - q.z * v.y)
  let ty := 2 * (q.z * v.x - q.x * v.z)
  let tz := 2 * (q.x * v.y - q.y * v.x)
  ⟨v.x + q.w * tx + (q.y * tz - q.z * ty),
   v.y + q.w * ty + (q.z * tx - q.x * tz),
   v.z + q.w * tz + (q.x * ty - q.y * tx)⟩

/-- Face from src/types/assembly.d.ts (the fields the calculator reads). -/
structure Face where
  id : String
  normal : VecR
  center : VecR
  area : ℝ
  ftype : String

/-- MateConstraint from src/types/assembly.d.ts.  The type tag is a string:
the switch in calculateMateTransform has a reachable default branch (the
declared union even contains a tangent tag with no case). -/
structure MateConstraint where
  id : String
  type : String
  partA : String
  faceA : String
  partB : String
  faceB : String
  flip : Option Bool := none
  offset : Option ℝ := none

/-- MateTransformResult from src/types/assembly.d.ts. -/
structure MateTransformResult where
  position : VecR
  rotation : QuatR
  success : Bool
  error : Option String := none

/-- calculateCoincidentMate(faceA, faceB, flip, offset).  The try/catch of the
source cannot fire in the embedding (the vector operations are total), so the
try body is the definition. -/
noncomputable def calculateCoincidentMate (faceA faceB : Face) (flip : Bool)
    (offset : ℝ) : MateTransformResult :=
  let normalA := faceA.normal
  let normalB := faceB.normal
  let targetNormal := if flip then normalA else normalA.neg
  let quaternion := QuatR.setFromUnitVectors normalB targetNormal
  let centerA := faceA.center
  let centerB := faceB.center
  let rotatedCenterB := centerB.applyQuaternion quaternion
  let translation := centerA.sub rotatedCenterB
  let translation :=
    if offset ≠ 0 then translation.add (VecR.smul offset targetNormal) else translation
  { position := translation, rotation := quaternion, success := true }

/-- calculateParallelMate(faceA, faceB, sameDirection): rotation only. -/
noncomputable def calculateParallelMate (faceA faceB : Face) (sameDirection : Bool) :
    MateTransformResult :=
  let normalA := faceA.normal
  let normalB := faceB.normal
  let targetNormal := if sameDirection then normalA else normalA.neg
  let quaternion := QuatR.setFromUnitVectors normalB targetNormal
  { position := ⟨0, 0, 0⟩, rotation := quaternion, success := true }

/-- calculatePerpendicularMate(faceA, faceB): rotate faceB onto one canonical
vector perpendicular to faceA (Gram-Schmidt against a non-colinear axis). -/
noncomputable def calculatePerpendicularMate (faceA faceB : Face) :
    MateTransformResult :=
  let normalA := faceA.normal
  let normalB := faceB.normal
  let perpendicular : VecR := if |normalA.x| < 9 / 10 then ⟨1, 0, 0⟩ else ⟨0, 1, 0⟩
  let projected := VecR.smul (perpendicular.dot normalA) normalA
  let targetNormal := (perpendicular.sub projected).normalize
  let quaternion := QuatR.setFromUnitVectors normalB targetNormal
  { position := ⟨0, 0, 0⟩, rotation := quaternion, success := true }

/-- calculateConcentricMate: not implemented, always fails. -/
noncomputable def calculateConcentricMate (_faceA _faceB : Face) : MateTransformResult :=
  { position := ⟨0, 0, 0⟩, rotation := ⟨0, 0, 0, 1⟩, success := false
    error := some "Concentric mate not implemented yet" }

/-- calculateDistanceMate: coincident with the distance as offset. -/
noncomputable def calculateDistanceMate (faceA faceB : Face) (distance : ℝ) :
    MateTransformResult :=
  calculateCoincidentMate faceA faceB false distance

/-- calculateMateTransform(mate, faceA, faceB): dispatch on the mate type,
with the switch default returning a failure result. -/
noncomputable def calculateMateTransform (mate : MateConstraint) (faceA faceB : Face) :
    MateTransformResult :=
  if mate.type = "coincident" then
    calculateCoincidentMate faceA faceB (mate.flip.getD false) (mate.offset.getD 0)
  else if mate.type = "parallel" then
    calculateParallelMate faceA faceB true
  else if mate.type = "perpendicular" then
    calculatePerpendicularMate faceA faceB
  else if mate.type = "concentric" then
    calculateConcentricMate faceA faceB
  else if mate.type = "distance" then
    calculateDistanceMate faceA faceB (mate.offset.getD 0)
  else
    { position := ⟨0, 0, 0⟩, rotation := ⟨0, 0, 0, 1⟩, success := false
      error := some ("Unknown mate type: " ++ mate.type) }

/-! Reference-level model of the resolver.  JavaScript objects live on a heap
and variables hold references, so whether an accessor returns a clone or the
live cached object is observable through mutation.  Here the Vector3 and Box3
objects are heap cells addressed by allocation index; the two caches store
addresses; clone() allocates a fresh cell with the same value.  The numeric
content of each operation is exactly that of the value-level model above. -/

/-- Resolver state at reference level: two heaps (vectors, boxes), the part
registry, and the two caches now holding cell addresses. -/
structure RefState where
  vheap : List Vec3
  bheap : List Box3
  parts : List (String × MachineryPart)
  resolvedPositions : List (String × Nat)
  boundingBoxCache : List (String × Nat)
deriving DecidableEq

/-- Allocate a vector cell (new THREE.Vector3 or clone()). -/
def RefState.allocV (s : RefState) (v : Vec3) : Nat × RefState :=
  (s.vheap.length, { s with vheap := s.vheap ++ [v] })

/-- Read a vector cell. -/
def RefState.readV (s : RefState) (a : Nat) : Vec3 := s.vheap.getD a Vec3.zero

/-- Mutate a vector cell in place (what a caller does to a returned vector). -/
def RefState.writeV (s : RefState) (a : Nat) (v : Vec3) : RefState :=
  { s with vheap := s.vheap.set a v }

/-- Allocate a box cell. -/
def RefState.allocB (s : RefState) (b : Box3) : Nat × RefState :=
  (s.bheap.length, { s with bheap := s.bheap ++ [b] })

/-- Read a box cell. -/
def RefState.readB (s : RefState) (a : Nat) : Box3 := s.bheap.getD a ⟨Vec3.zero, Vec3.zero⟩

/-- Mutate a box cell in place. -/
def RefState.writeB (s : RefState) (a : Nat) (b : Box3) : RefState :=
  { s with bheap := s.bheap.set a b }

/-- getPartHeight at reference level (reads through the cached address). -/
def RefState.getPartHeight (s : RefState) (partName : String) : ℚ :=
  match SMap.lookup partName s.boundingBoxCache with
  | none => Vec3.zero.y
  | some a => (s.readB a).getSize.y

/-- getBoundingBox(partName) returns this.boundingBoxCache.get(partName): the
stored address itself, not a clone. -/
def RefState.getBoundingBox (s : RefState) (partName : String) : Option Nat :=
  SMap.lookup partName s.boundingBoxCache

/-- Loop body of getAllBoundingBoxes: per entry, allocate box.clone() and
compute its size. -/
def RefState.getAllBoundingBoxesGo : List (String × Nat) → RefState →
    List (String × Nat × Vec3) × RefState
  | [], s => ([], s)
  | e :: rest, s =>
    let box := s.readB e.2
    let (a, s1) := s.allocB box
    let (tail, s2) := RefState.getAllBoundingBoxesGo rest s1
    ((e.1, a, box.getSize) :: tail, s2)

/-- getAllBoundingBoxes(): cloned boxes, never the cached cells. -/
def RefState.getAllBoundingBoxes (s : RefState) : List (String × Nat × Vec3) × RefState :=
  RefState.getAllBoundingBoxesGo s.boundingBoxCache s

/-- resolveStackedOn at reference level: the recursive call returns the
address of a clone cell, whose value is read; the freshly built result object
is returned by value (no reference to it escapes the helper except the one
handed to resolvePosition, which stores and clones it). -/
def RefState.resolveStackedOn (recur : RefState → MachineryPart → Option (Nat × RefState))
    (s : RefState) (part : MachineryPart) (c : AssemblyConstraint) :
    Option (Vec3 × RefState) :=
  match c.parentPart with
  | none => some (Vec3.zero, s)
  | some parentName =>
    match SMap.lookup parentName s.parts with
    | none => some (Vec3.zero, s)
    | some parentPart =>
      match recur s parentPart with
      | none => none
      | some (ppAddr, s1) =>
        let parentPos := s1.readV ppAddr
        match SMap.lookup parentName s1.boundingBoxCache with
        | none =>
          let height := s1.getPartHeight parentName
          let manualOffset := c.offset.getD Vec3.zero
          some (parentPos.add ⟨manualOffset.x, height + manualOffset.y, manualOffset.z⟩, s1)
        | some boxAddr =>
          let parentBox := s1.readB boxAddr
          let parentTopY := parentBox.max.y
          let childBottomY :=
            match SMap.lookup part.name s1.boundingBoxCache with
            | some childAddr => (s1.readB childAddr).min.y
            | none => 0
          let manualOffset := c.offset.getD Vec3.zero
          let autoOffsetY := parentTopY - childBottomY
          let finalOffsetY := if manualOffset.y ≠ 0 then manualOffset.y else autoOffsetY
          some (parentPos.add ⟨manualOffset.x, finalOffsetY, manualOffset.z⟩, s1)

/-- resolveThreaded at reference level. -/
def RefState.resolveThreaded (recur : RefState → MachineryPart → Option (Nat × RefState))
    (s : RefState) (_part : MachineryPart) (c : AssemblyConstraint) :
    Option (Vec3 × RefState) :=
  match c.threadedOn with
  | none => some (Vec3.zero, s)
  | some threadedPartName =>
    match SMap.lookup threadedPartName s.parts with
    | none => some (Vec3.zero, s)
    | some threadedPart =>
      match recur s threadedPart with
      | none => none
      | some (rodAddr, s1) =>
        let rodPos := s1.readV rodAddr
        let rodHeight := s1.getPartHeight threadedPartName
        let depth := c.threadDepth.getD (1 / 2)
        let offset := c.offset.getD Vec3.zero
        some ((rodPos.add ⟨0, rodHeight * depth, 0⟩).add offset, s1)

/-- resolveRadial at reference level. -/
def RefState.resolveRadial (tr : Trig)
    (recur : RefState → MachineryPart → Option (Nat × RefState))
    (s : RefState) (_part : MachineryPart) (c : AssemblyConstraint) :
    Option (Vec3 × RefState) :=
  match c.centerPart with
  | none => some (Vec3.zero, s)
  | some centerPartName =>
    match SMap.lookup centerPartName s.parts with
    | none => some (Vec3.zero, s)
    | some centerPart =>
      match recur s centerPart with
      | none => none
      | some (centerAddr, s1) =>
        let centerPos := s1.readV centerAddr
        let angle := c.angle.getD 0
        let radius := c.radius.getD 5
        let offset := c.offset.getD Vec3.zero
        let px := tr.cosDeg angle * radius
        let pz := tr.sinDeg angle * radius
        some ((centerPos.add ⟨px, 0, pz⟩).add offset, s1)

/-- resolvePosition at reference level.  A cache hit reads the cached cell and
returns a clone (fresh cell); a computed position is stored in a fresh cell
whose address goes into the cache, and a second fresh clone cell is returned. -/
def RefState.resolvePosition (tr : Trig) : Nat → RefState → MachineryPart →
    Option (Nat × RefState)
  | 0, _, _ => none
  | fuel + 1, s, part =>
    match SMap.lookup part.name s.resolvedPositions with
    | some a =>
      -- return this.resolvedPositions.get(part.name)!.clone()
      some (s.allocV (s.readV a))
    | none =>
      match part.constraint with
      | none =>
        let pos := part.assemblyOffset.getD Vec3.zero
        let (a, s1) := s.allocV pos
        let s2 := { s1 with resolvedPositions := SMap.insert part.name a s1.resolvedPositions }
        -- return pos.clone()
        some (s2.allocV pos)
      | some c =>
        let res : Option (Vec3 × RefState) :=
          if c.type = "Fixed" then
            some (c.offset.getD Vec3.zero, s)
          else if c.type = "StackedOn" then
            RefState.resolveStackedOn (fun s3 p3 => RefState.resolvePosition tr fuel s3 p3) s part c
          else if c.type = "Threaded" then
            RefState.resolveThreaded (fun s3 p3 => RefState.resolvePosition tr fuel s3 p3) s part c
          else if c.type = "RadialAroundCenter" then
            RefState.resolveRadial tr (fun s3 p3 => RefState.resolvePosition tr fuel s3 p3) s part c
          else
            some (Vec3.zero, s)
        match res with
        | none => none
        | some (position, s1) =>
          let (a, s2) := s1.allocV position
          let s3 := { s2 with resolvedPositions := SMap.insert part.name a s2.resolvedPositions }
          -- return position.clone()
          some (s3.allocV position)

/-- Loop body of resolveAll at reference level. -/
def RefState.resolveAllGo (tr : Trig) (fuel : Nat) :
    List (String × MachineryPart) → RefState → Option RefState
  | [], s => some s
  | e :: rest, s =>
    match RefState.resolvePosition tr fuel s e.2 with
    | none => none
    | some (_, s1) => RefState.resolveAllGo tr fuel rest s1

/-- resolveAll() at reference level: the returned map is new
Map(this.resolvedPositions), a fresh Map whose values are the very addresses
stored in the cache. -/
def RefState.resolveAll (tr : Trig) (fuel : Nat) (s : RefState) :
    Option (List (String × Nat) × RefState) :=
  match RefState.resolveAllGo tr fuel s.parts { s with resolvedPositions := [] } with
  | none => none
  | some s1 => some (s1.resolvedPositions, s1)

/-! Acyclicity certificates for claim C4.  A rank function decreasing along
every constraint edge of the registry witnesses that the constraint graph is
a DAG whose chains terminate (a part whose constraint has no outgoing edge,
in particular Fixed or no constraint, needs no smaller neighbour). -/

/-- The part name a constraint recurses into: parentPart for StackedOn,
threadedOn for Threaded, centerPart for RadialAroundCenter. -/
def constraintRef (c : AssemblyConstraint) : Option String :=
  if c.type = "StackedOn" then c.parentPart
  else if c.type = "Threaded" then c.threadedOn
  else if c.type = "RadialAroundCenter" then c.centerPart
  else none

/-- The rank decreases along the (at most one) outgoing edge of a part that
is actually followed, i.e. whose target is registered. -/
def partEdgeOk (rank : String → Nat) (registry : List (String × MachineryPart))
    (p : MachineryPart) : Bool :=
  match p.constraint with
  | none => true
  | some c =>
    match constraintRef c with
    | none => true
    | some q =>
      match SMap.lookup q registry with
      | none => true
      | some qp => decide (rank qp.name < rank p.name)

/-- The rank decreases along every followed edge of the registry. -/
def acyclicRank (rank : String → Nat) (registry : List (String × MachineryPart)) : Bool :=
  registry.all (fun e => partEdgeOk rank registry e.2)

/-- Association-list keys are pairwise distinct, as the keys of an ES Map
always are. -/
def keysNodup {A : Type} (m : List (String × A)) : Prop :=
  (m.map Prod.fst).Nodup

instance {A : Type} (m : List (String × A)) : Decidable (keysNodup m) := by
  unfold keysNodup; infer_instance

/-- The state components resolvePosition never writes: the part registry, the
mesh cache and the bounding-box cache. -/
def Resolver.frameEq (s s2 : Resolver) : Prop :=
  s2.parts = s.parts ∧ s2.meshCache = s.meshCache ∧ s2.boundingBoxCache = s.boundingBoxCache

/-- Vector-heap addresses stored in the reference-level resolved-position
cache are valid (strictly below the heap length). -/
def RefState.vcacheBound (s : RefState) : Prop :=
  ∀ e ∈ s.resolvedPositions, e.2 < s.vheap.length

instance (s : RefState) : Decidable (RefState.vcacheBound s) := by
  unfold RefState.vcacheBound; infer_instance

/-- Box-heap addresses stored in the reference-level bounding-box cache are
valid. -/
def RefState.bcacheBound (s : RefState) : Prop :=
  ∀ e ∈ s.boundingBoxCache, e.2 < s.bheap.length

instance (s : RefState) : Decidable (RefState.bcacheBound s) := by
  unfold RefState.bcacheBound; infer_instance

/-- The non-fatal failure cases of constraint resolution: a StackedOn,
Threaded or RadialAroundCenter constraint whose reference field is absent or
names an unregistered part, or a constraint whose type tag matches no case of
the switch. -/
def constraintErrorCase (s : Resolver) (c : AssemblyConstraint) : Prop :=
  (c.type = "StackedOn" ∧
    (c.parentPart = none ∨ ∃ q, c.parentPart = some q ∧ SMap.lookup q s.parts = none)) ∨
  (c.type = "Threaded" ∧
    (c.threadedOn = none ∨ ∃ q, c.threadedOn = some q ∧ SMap.lookup q s.parts = none)) ∨
  (c.type = "RadialAroundCenter" ∧
    (c.centerPart = none ∨ ∃ q, c.centerPart = some q ∧ SMap.lookup q s.parts = none)) ∨
  (c.type ≠ "Fixed" ∧ c.type ≠ "StackedOn" ∧ c.type ≠ "Threaded" ∧
    c.type ≠ "RadialAroundCenter")

/-! Concrete instances used by the witnesses and counterexamples below. -/

/-- A concrete trig oracle for evaluations (no stated result depends on its
values). -/
def trigW : Trig := { cosDeg := fun _ => 1, sinDeg := fun _ => 0 }

/-- Part name used by the concrete states. -/
def nameBase : String := "base"

/-- Part name used by the concrete states. -/
def namePlate : String := "plate"

/-- Part name used by the concrete states. -/
def nameRod : String := "rod"

/-- Part name used by the concrete states. -/
def nameNut : String := "nut"

/-- Part name used by the concrete states. -/
def nameGround : String := "gnd"

/-- Part name used by the concrete states. -/
def nameWeld : String := "weldpart"

/-- Base part fixed at the origin. -/
def basePartW : MachineryPart := { name := nameBase, constraint := some { type := "Fixed" } }

/-- Plate stacked on the base, no manual offset. -/
def plateFlushW : MachineryPart :=
  { name := namePlate
    constraint := some { type := "StackedOn", parentPart := some nameBase } }

/-- Plate stacked on the base with manual offset (0, 5, 0). -/
def plateOffsetW : MachineryPart :=
  { name := namePlate
    constraint := some { type := "StackedOn", parentPart := some nameBase
                         offset := some ⟨0, 5, 0⟩ } }

/-- Bounding box of the base: top at Y = 10 (and height 11). -/
def baseBoxW : Box3 := ⟨⟨0, -1, 0⟩, ⟨4, 10, 4⟩⟩

/-- Bounding box of the plate: bottom at Y = -2. -/
def plateBoxW : Box3 := ⟨⟨0, -2, 0⟩, ⟨2, 3, 2⟩⟩

/-- Stacked pair with both boxes cached, flush variant. -/
def stackedFlushStateW : Resolver :=
  { parts := [(nameBase, basePartW), (namePlate, plateFlushW)]
    resolvedPositions := []
    meshCache := []
    boundingBoxCache := [(nameBase, baseBoxW), (namePlate, plateBoxW)] }

/-- Stacked pair with both boxes cached, manual-offset variant. -/
def stackedOffsetStateW : Resolver :=
  { stackedFlushStateW with parts := [(nameBase, basePartW), (namePlate, plateOffsetW)] }

/-- Stacked pair whose child (plate) box is not cached. -/
def stackedNoChildBoxStateW : Resolver :=
  { stackedFlushStateW with boundingBoxCache := [(nameBase, baseBoxW)] }

/-- Stacked pair with no cached boxes at all. -/
def stackedNoBoxStateW : Resolver :=
  { stackedFlushStateW with boundingBoxCache := [] }

/-- Rod fixed at (0, 5, 0). -/
def rodPartW : MachineryPart :=
  { name := nameRod, constraint := some { type := "Fixed", offset := some ⟨0, 5, 0⟩ } }

/-- Rod bounding box of height 20. -/
def rodBoxW : Box3 := ⟨⟨0, 0, 0⟩, ⟨1, 20, 1⟩⟩

/-- Nut threaded on the rod at depth 4/5. -/
def nutPartW : MachineryPart :=
  { name := nameNut
    constraint := some { type := "Threaded", threadedOn := some nameRod
                         threadDepth := some (4 / 5) } }

/-- Nut threaded on the rod at depth 0. -/
def nutPart0W : MachineryPart :=
  { name := nameNut
    constraint := some { type := "Threaded", threadedOn := some nameRod
                         threadDepth := some 0 } }

/-- Nut threaded on the rod at depth 1. -/
def nutPart1W : MachineryPart :=
  { name := nameNut
    constraint := some { type := "Threaded", threadedOn := some nameRod
                         threadDepth := some 1 } }

/-- Rod and nut with the rod box cached. -/
def threadedStateW : Resolver :=
  { parts := [(nameRod, rodPartW), (nameNut, nutPartW)]
    resolvedPositions := []
    meshCache := []
    boundingBoxCache := [(nameRod, rodBoxW)] }

/-- Depth-0 variant of the threaded pair. -/
def threadedState0W : Resolver :=
  { threadedStateW with parts := [(nameRod, rodPartW), (nameNut, nutPart0W)] }

/-- Depth-1 variant of the threaded pair. -/
def threadedState1W : Resolver :=
  { threadedStateW with parts := [(nameRod, rodPartW), (nameNut, nutPart1W)] }

/-- A ground part carrying a nonzero assemblyOffset and no constraint. -/
def groundOffsetPartW : MachineryPart :=
  { name := nameGround, assemblyOffset := some ⟨1, 2, 3⟩, isGround := some true }

/-- Registry holding only the offset ground part. -/
def groundStateW : Resolver :=
  { parts := [(nameGround, groundOffsetPartW)]
    resolvedPositions := []
    meshCache := []
    boundingBoxCache := [] }

/-- A ground part with neither constraint nor assemblyOffset. -/
def groundPlainPartW : MachineryPart := { name := nameGround, isGround := some true }

/-- Registry holding only the plain ground part. -/
def groundPlainStateW : Resolver :=
  { parts := [(nameGround, groundPlainPartW)]
    resolvedPositions := []
    meshCache := []
    boundingBoxCache := [] }

/-- Nut threaded on the plate, closing a three-part chain for resolveAll. -/
def nutOnPlateW : MachineryPart :=
  { name := nameNut
    constraint := some { type := "Threaded", threadedOn := some namePlate
                         threadDepth := some (4 / 5) } }

/-- Base, plate and nut: an acyclic three-part chain. -/
def chainStateW : Resolver :=
  { parts := [(nameBase, basePartW), (namePlate, plateFlushW), (nameNut, nutOnPlateW)]
    resolvedPositions := []
    meshCache := []
    boundingBoxCache := [(nameBase, baseBoxW), (namePlate, plateBoxW)] }

/-- A rank certificate for the chain: base below plate below nut. -/
def rankW : String → Nat := fun n =>
  if n = nameBase then 0 else if n = namePlate then 1 else 2

/-- A concrete mesh (its raw unit-scale box). -/
def meshW : Mesh := ⟨⟨⟨0, 0, 0⟩, ⟨2, 2, 2⟩⟩⟩

/-- State with two cached resolved positions, a mesh and a box; exercises the
invalidation operations. -/
def cachedStateW : Resolver :=
  { parts := [(nameBase, basePartW), (namePlate, plateFlushW)]
    resolvedPositions := [(nameBase, ⟨0, 0, 0⟩), (namePlate, ⟨0, 12, 0⟩)]
    meshCache := [(nameBase, meshW)]
    boundingBoxCache := [(nameBase, baseBoxW)] }

/-- A replacement constraint for the invalidation tests. -/
def newConstraintW : AssemblyConstraint := { type := "Fixed", offset := some ⟨7, 8, 9⟩ }

/-- Reference-level state with one cached bounding box stored at address 0. -/
def refBoxStateW : RefState :=
  { vheap := []
    bheap := [baseBoxW]
    parts := []
    resolvedPositions := []
    boundingBoxCache := [(nameBase, 0)] }

/-- The value a hostile caller writes through a returned reference. -/
def mutatedBoxW : Box3 := ⟨⟨9, 9, 9⟩, ⟨9, 9, 9⟩⟩

/-- A part resolving to (5, 0, 0) from its assemblyOffset. -/
def refPartW : MachineryPart := { name := nameBase, assemblyOffset := some ⟨5, 0, 0⟩ }

/-- Reference-level state holding only that part, with empty heaps. -/
def refResolveStateW : RefState :=
  { vheap := []
    bheap := []
    parts := [(nameBase, refPartW)]
    resolvedPositions := []
    boundingBoxCache := [] }

/-- Reference-level state after resolveAll on that part: the position object
lives in cell 0 (shared with the cache), its returned clone in cell 1. -/
def refAfterW : RefState :=
  { vheap := [⟨5, 0, 0⟩, ⟨5, 0, 0⟩]
    bheap := []
    parts := [(nameBase, refPartW)]
    resolvedPositions := [(nameBase, 0)]
    boundingBoxCache := [] }

/-- A planar face for the mate calculator. -/
def faceW : Face :=
  { id := "f0", normal := ⟨1, 0, 0⟩, center := ⟨0, 0, 0⟩, area := 1, ftype := "planar" }

/-- A second planar face. -/
def faceW2 : Face :=
  { id := "f1", normal := ⟨0, 1, 0⟩, center := ⟨1, 1, 1⟩, area := 1, ftype := "planar" }

/-- A concentric mate between the two faces. -/
def concentricMateW : MateConstraint :=
  { id := "m1", type := "concentric", partA := "pa", faceA := "f0"
    partB := "pb", faceB := "f1" }

/-- A mate whose type tag (tangent) matches no switch case. -/
def tangentMateW : MateConstraint :=
  { id := "m2", type := "tangent", partA := "pa", faceA := "f0"
    partB := "pb", faceB := "f1" }

/-- A part whose constraint has an unknown type tag. -/
def weldPartW : MachineryPart := { name := nameWeld, constraint := some { type := "Weld" } }

/-- Registry holding only the unknown-typed part. -/
def weldStateW : Resolver :=
  { parts := [(nameWeld, weldPartW)]
    resolvedPositions := []
    meshCache := []
    boundingBoxCache := [] }

namespace SMap

theorem lookup_insert_self {A : Type} (k : String) (v : A) (m : List (String × A)) :
    lookup k (insert k v m) = some v := by
  induction m with
  | nil => simp [lookup, insert]
  | cons e rest ih =>
    by_cases h : e.1 = k
    · simp [lookup, insert, h]
    · simp [lookup, insert, h, ih]

theorem lookup_insert_ne {A : Type} (k n : String) (v : A) (m : List (String × A))
    (h : k ≠ n) : lookup n (insert k v m) = lookup n m := by
  induction m with
  | nil => simp [lookup, insert, h]
  | cons e rest ih =>
    by_cases he : e.1 = k
    · subst he
      simp [lookup, insert, h]
    · simp only [insert, he, if_false, lookup]
      by_cases hn : e.1 = n
      · simp [hn]
      · simp [hn, ih]

theorem lookup_eraseKey_ne {A : Type} (k n : String) (m : List (String × A))
    (h : n ≠ k) : lookup n (eraseKey k m) = lookup n m := by
  induction m with
  | nil => simp [eraseKey]
  | cons e rest ih =>
    by_cases he : e.1 = k
    · subst he
      have hne : ¬ e.1 = n := fun hh => h hh.symm
      simp [eraseKey, lookup, hne]
    · simp only [eraseKey, he, if_false, lookup]
      by_cases hn : e.1 = n
      · simp [hn]
      · simp [hn, ih]

theorem lookup_notmem_keys {A : Type} (k : String) (m : List (String × A))
    (h : k ∉ m.map Prod.fst) : lookup k m = none := by
  induction m with
  | nil => rfl
  | cons e rest ih =>
    simp only [List.map_cons, List.mem_cons] at h
    push_neg at h
    have hne : ¬ e.1 = k := fun hh => h.1 hh.symm
    simp only [lookup, hne, if_false]
    exact ih h.2

theorem lookup_eraseKey_self {A : Type} (k : String) (m : List (String × A))
    (h : keysNodup m) : lookup k (eraseKey k m) = none := by
  induction m with
  | nil => rfl
  | cons e rest ih =>
    simp only [keysNodup, List.map_cons, List.nodup_cons] at h
    by_cases he : e.1 = k
    · subst he
      simp only [eraseKey, if_pos rfl]
      exact lookup_notmem_keys _ _ h.1
    · simp only [eraseKey, he, if_false, lookup, if_false]
      exact ih h.2

theorem lookup_mem {A : Type} {k : String} {v : A} {m : List (String × A)}
    (h : lookup k m = some v) : (k, v) ∈ m := by
  induction m with
  | nil => simp [lookup] at h
  | cons e rest ih =>
    obtain ⟨k1, v1⟩ := e
    by_cases he : k1 = k
    · subst he
      simp only [lookup, if_pos rfl] at h
      injection h with h
      subst h
      exact List.mem_cons_self _ _
    · simp only [lookup, he, if_false] at h
      exact List.mem_cons_of_mem _ (ih h)

end SMap

theorem Resolver.frameEq_refl (s : Resolver) : Resolver.frameEq s s := ⟨rfl, rfl, rfl⟩

theorem Resolver.resolveStackedOn_frame
    {recur : Resolver → MachineryPart → Option (Vec3 × Resolver)}
    (hrec : ∀ s p v s2, recur s p = some (v, s2) → Resolver.frameEq s s2)
    {s : Resolver} {part : MachineryPart} {c : AssemblyConstraint} {v : Vec3} {s2 : Resolver}
    (h : Resolver.resolveStackedOn recur s part c = some (v, s2)) :
    Resolver.frameEq s s2 := by
  unfold Resolver.resolveStackedOn at h
  repeat' split at h
  all_goals try (exact Option.noConfusion h)
  all_goals simp only [Option.some.injEq, Prod.mk.injEq] at h
  all_goals obtain ⟨-, hs⟩ := h
  all_goals subst hs
  all_goals first
    | exact Resolver.frameEq_refl _
    | exact hrec _ _ _ _ (by assumption)

theorem Resolver.resolveThreaded_frame
    {recur : Resolver → MachineryPart → Option (Vec3 × Resolver)}
    (hrec : ∀ s p v s2, recur s p = some (v, s2) → Resolver.frameEq s s2)
    {s : Resolver} {part : MachineryPart} {c : AssemblyConstraint} {v : Vec3} {s2 : Resolver}
    (h : Resolver.resolveThreaded recur s part c = some (v, s2)) :
    Resolver.frameEq s s2 := by
  unfold Resolver.resolveThreaded at h
  repeat' split at h
  all_goals try (exact Option.noConfusion h)
  all_goals simp only [Option.some.injEq, Prod.mk.injEq] at h
  all_goals obtain ⟨-, hs⟩ := h
  all_goals subst hs
  all_goals first
    | exact Resolver.frameEq_refl _
    | exact hrec _ _ _ _ (by assumption)

theorem Resolver.resolveRadial_frame {tr : Trig}
    {recur : Resolver → MachineryPart → Option (Vec3 × Resolver)}
    (hrec : ∀ s p v s2, recur s p = some (v, s2) → Resolver.frameEq s s2)
    {s : Resolver} {part : MachineryPart} {c : AssemblyConstraint} {v : Vec3} {s2 : Resolver}
    (h : Resolver.resolveRadial tr recur s part c = some (v, s2)) :
    Resolver.frameEq s s2 := by
  unfold Resolver.resolveRadial at h
  repeat' split at h
  all_goals try (exact Option.noConfusion h)
  all_goals simp only [Option.some.injEq, Prod.mk.injEq] at h
  all_goals obtain ⟨-, hs⟩ := h
  all_goals subst hs
  all_goals first
    | exact Resolver.frameEq_refl _
    | exact hrec _ _ _ _ (by assumption)

theorem Resolver.resolvePosition_frame (tr : Trig) :
    ∀ fuel {s : Resolver} {part : MachineryPart} {v : Vec3} {s2 : Resolver},
      Resolver.resolvePosition tr fuel s part = some (v, s2) → Resolver.frameEq s s2 := by
  intro fuel
  induction fuel with
  | zero =>
    intro s part v s2 h
    rw [Resolver.resolvePosition] at h
    exact Option.noConfusion h
  | succ fuel ih =>
    intro s part v s2 h
    rw [Resolver.resolvePosition] at h
    split at h
    · simp only [Option.some.injEq, Prod.mk.injEq] at h
      obtain ⟨-, hs⟩ := h
      subst hs
      exact Resolver.frameEq_refl s
    · split at h
      · simp only [Option.some.injEq, Prod.mk.injEq] at h
        obtain ⟨-, hs⟩ := h
        subst hs
        exact ⟨rfl, rfl, rfl⟩
      · rename_i c hc
        simp only [] at h
        by_cases hF : c.type = "Fixed"
        · rw [if_pos hF] at h
          simp only [Option.some.injEq, Prod.mk.injEq] at h
          obtain ⟨-, hs⟩ := h
          subst hs
          exact ⟨rfl, rfl, rfl⟩
        · rw [if_neg hF] at h
          by_cases hS : c.type = "StackedOn"
          · rw [if_pos hS] at h
            split at h
            · exact Option.noConfusion h
            · rename_i position s1 heq
              simp only [Option.some.injEq, Prod.mk.injEq] at h
              obtain ⟨-, hs⟩ := h
              subst hs
              exact (fun hf => ⟨hf.1, hf.2.1, hf.2.2⟩) (Resolver.resolveStackedOn_frame (fun a b w d h0 => ih h0) heq)
          · rw [if_neg hS] at h
            by_cases hT : c.type = "Threaded"
            · rw [if_pos hT] at h
              split at h
              · exact Option.noConfusion h
              · rename_i position s1 heq
                simp only [Option.some.injEq, Prod.mk.injEq] at h
                obtain ⟨-, hs⟩ := h
                subst hs
                exact (fun hf => ⟨hf.1, hf.2.1, hf.2.2⟩) (Resolver.resolveThreaded_frame (fun a b w d h0 => ih h0) heq)
            · rw [if_neg hT] at h
              by_cases hR : c.type = "RadialAroundCenter"
              · rw [if_pos hR] at h
                split at h
                · exact Option.noConfusion h
                · rename_i position s1 heq
                  simp only [Option.some.injEq, Prod.mk.injEq] at h
                  obtain ⟨-, hs⟩ := h
                  subst hs
                  exact (fun hf => ⟨hf.1, hf.2.1, hf.2.2⟩) (Resolver.resolveRadial_frame (fun a b w d h0 => ih h0) heq)
              · rw [if_neg hR] at h
                simp only [Option.some.injEq, Prod.mk.injEq] at h
                obtain ⟨-, hs⟩ := h
                subst hs
                exact ⟨rfl, rfl, rfl⟩

theorem Resolver.resolveStackedOn_mono
    {recur : Resolver → MachineryPart → Option (Vec3 × Resolver)}
    (hrec : ∀ s p v s2, recur s p = some (v, s2) →
      ∀ n w, SMap.lookup n s.resolvedPositions = some w →
        SMap.lookup n s2.resolvedPositions = some w)
    {s : Resolver} {part : MachineryPart} {c : AssemblyConstraint} {v : Vec3} {s2 : Resolver}
    (h : Resolver.resolveStackedOn recur s part c = some (v, s2)) :
    ∀ n w, SMap.lookup n s.resolvedPositions = some w →
      SMap.lookup n s2.resolvedPositions = some w := by
  unfold Resolver.resolveStackedOn at h
  repeat' split at h
  all_goals try (exact Option.noConfusion h)
  all_goals simp only [Option.some.injEq, Prod.mk.injEq] at h
  all_goals obtain ⟨-, hs⟩ := h
  all_goals subst hs
  all_goals first
    | (intro n w hw; exact hw)
    | exact hrec _ _ _ _ (by assumption)

theorem Resolver.resolveThreaded_mono
    {recur : Resolver → MachineryPart → Option (Vec3 × Resolver)}
    (hrec : ∀ s p v s2, recur s p = some (v, s2) →
      ∀ n w, SMap.lookup n s.resolvedPositions = some w →
        SMap.lookup n s2.resolvedPositions = some w)
    {s : Resolver} {part : MachineryPart} {c : AssemblyConstraint} {v : Vec3} {s2 : Resolver}
    (h : Resolver.resolveThreaded recur s part c = some (v, s2)) :
    ∀ n w, SMap.lookup n s.resolvedPositions = some w →
      SMap.lookup n s2.resolvedPositions = some w := by
  unfold Resolver.resolveThreaded at h
  repeat' split at h
  all_goals try (exact Option.noConfusion h)
  all_goals simp only [Option.some.injEq, Prod.mk.injEq] at h
  all_goals obtain ⟨-, hs⟩ := h
  all_goals subst hs
  all_goals first
    | (intro n w hw; exact hw)
    | exact hrec _ _ _ _ (by assumption)

theorem Resolver.resolveRadial_mono {tr : Trig}
    {recur : Resolver → MachineryPart → Option (Vec3 × Resolver)}
    (hrec : ∀ s p v s2, recur s p = some (v, s2) →
      ∀ n w, SMap.lookup n s.resolvedPositions = some w →
        SMap.lookup n s2.resolvedPositions = some w)
    {s : Resolver} {part : MachineryPart} {c : AssemblyConstraint} {v : Vec3} {s2 : Resolver}
    (h : Resolver.resolveRadial tr recur s part c = some (v, s2)) :
    ∀ n w, SMap.lookup n s.resolvedPositions = some w →
      SMap.lookup n s2.resolvedPositions = some w := by
  unfold Resolver.resolveRadial at h
  repeat' split at h
  all_goals try (exact Option.noConfusion h)
  all_goals simp only [Option.some.injEq, Prod.mk.injEq] at h
  all_goals obtain ⟨-, hs⟩ := h
  all_goals subst hs
  all_goals first
    | (intro n w hw; exact hw)
    | exact hrec _ _ _ _ (by assumption)

theorem Resolver.resolvePosition_mono (tr : Trig) :
    ∀ fuel {s : Resolver} {part : MachineryPart} {v : Vec3} {s2 : Resolver},
      Resolver.resolvePosition tr fuel s part = some (v, s2) →
      ∀ n w, SMap.lookup n s.resolvedPositions = some w →
        SMap.lookup n s2.resolvedPositions = some w := by
  intro fuel
  induction fuel with
  | zero =>
    intro s part v s2 h
    rw [Resolver.resolvePosition] at h
    exact Option.noConfusion h
  | succ fuel ih =>
    intro s part v s2 h
    rw [Resolver.resolvePosition] at h
    split at h
    · simp only [Option.some.injEq, Prod.mk.injEq] at h
      obtain ⟨-, hs⟩ := h
      subst hs
      exact fun n w hw => hw
    · rename_i hmiss
      have hne : ∀ n w, SMap.lookup n s.resolvedPositions = some w → part.name ≠ n := by
        intro n w hw hh
        rw [hh] at hmiss
        rw [hmiss] at hw
        exact Option.noConfusion hw
      split at h
      · simp only [Option.some.injEq, Prod.mk.injEq] at h
        obtain ⟨-, hs⟩ := h
        subst hs
        intro n w hw
        show SMap.lookup n (SMap.insert part.name _ s.resolvedPositions) = some w
        rw [SMap.lookup_insert_ne _ _ _ _ (hne n w hw)]
        exact hw
      · rename_i c hc
        simp only [] at h
        have hfin : ∀ (position : Vec3) (s1 : Resolver),
            (∀ n w, SMap.lookup n s.resolvedPositions = some w →
              SMap.lookup n s1.resolvedPositions = some w) →
            ∀ n w, SMap.lookup n s.resolvedPositions = some w →
              SMap.lookup n (SMap.insert part.name position s1.resolvedPositions) = some w := by
          intro position s1 h1 n w hw
          rw [SMap.lookup_insert_ne _ _ _ _ (hne n w hw)]
          exact h1 n w hw
        by_cases hF : c.type = "Fixed"
        · rw [if_pos hF] at h
          simp only [Option.some.injEq, Prod.mk.injEq] at h
          obtain ⟨-, hs⟩ := h
          subst hs
          exact hfin _ _ (fun n w hw => hw)
        · rw [if_neg hF] at h
          by_cases hS : c.type = "StackedOn"
          · rw [if_pos hS] at h
            split at h
            · exact Option.noConfusion h
            · rename_i position s1 heq
              simp only [Option.some.injEq, Prod.mk.injEq] at h
              obtain ⟨-, hs⟩ := h
              subst hs
              exact hfin _ _ (Resolver.resolveStackedOn_mono (fun a b w2 d h0 => ih h0) heq)
          · rw [if_neg hS] at h
            by_cases hT : c.type = "Threaded"
            · rw [if_pos hT] at h
              split at h
              · exact Option.noConfusion h
              · rename_i position s1 heq
                simp only [Option.some.injEq, Prod.mk.injEq] at h
                obtain ⟨-, hs⟩ := h
                subst hs
                exact hfin _ _ (Resolver.resolveThreaded_mono (fun a b w2 d h0 => ih h0) heq)
            · rw [if_neg hT] at h
              by_cases hR : c.type = "RadialAroundCenter"
              · rw [if_pos hR] at h
                split at h
                · exact Option.noConfusion h
                · rename_i position s1 heq
                  simp only [Option.some.injEq, Prod.mk.injEq] at h
                  obtain ⟨-, hs⟩ := h
                  subst hs
                  exact hfin _ _ (Resolver.resolveRadial_mono (fun a b w2 d h0 => ih h0) heq)
              · rw [if_neg hR] at h
                simp only [Option.some.injEq, Prod.mk.injEq] at h
                obtain ⟨-, hs⟩ := h
                subst hs
                exact hfin _ _ (fun n w hw => hw)

theorem Resolver.resolvePosition_selfCached (tr : Trig) {fuel : Nat}
    {s : Resolver} {part : MachineryPart} {v : Vec3} {s2 : Resolver}
    (h : Resolver.resolvePosition tr fuel s part = some (v, s2)) :
    SMap.lookup part.name s2.resolvedPositions = some v := by
  cases fuel with
  | zero =>
    rw [Resolver.resolvePosition] at h
    exact Option.noConfusion h
  | succ fuel =>
    rw [Resolver.resolvePosition] at h
    split at h
    · rename_i w hw
      simp only [Option.some.injEq, Prod.mk.injEq] at h
      obtain ⟨hv, hs⟩ := h
      subst hs
      subst hv
      exact hw
    · split at h
      · simp only [Option.some.injEq, Prod.mk.injEq] at h
        obtain ⟨hv, hs⟩ := h
        subst hs
        subst hv
        exact SMap.lookup_insert_self _ _ _
      · rename_i c hc
        simp only [] at h
        by_cases hF : c.type = "Fixed"
        · rw [if_pos hF] at h
          simp only [Option.some.injEq, Prod.mk.injEq] at h
          obtain ⟨hv, hs⟩ := h
          subst hs
          subst hv
          exact SMap.lookup_insert_self _ _ _
        · rw [if_neg hF] at h
          by_cases hS : c.type = "StackedOn"
          · rw [if_pos hS] at h
            split at h
            · exact Option.noConfusion h
            · rename_i position s1 heq
              simp only [Option.some.injEq, Prod.mk.injEq] at h
              obtain ⟨hv, hs⟩ := h
              subst hs
              subst hv
              exact SMap.lookup_insert_self _ _ _
          · rw [if_neg hS] at h
            by_cases hT : c.type = "Threaded"
            · rw [if_pos hT] at h
              split at h
              · exact Option.noConfusion h
              · rename_i position s1 heq
                simp only [Option.some.injEq, Prod.mk.injEq] at h
                obtain ⟨hv, hs⟩ := h
                subst hs
                subst hv
                exact SMap.lookup_insert_self _ _ _
            · rw [if_neg hT] at h
              by_cases hR : c.type = "RadialAroundCenter"
              · rw [if_pos hR] at h
                split at h
                · exact Option.noConfusion h
                · rename_i position s1 heq
                  simp only [Option.some.injEq, Prod.mk.injEq] at h
                  obtain ⟨hv, hs⟩ := h
                  subst hs
                  subst hv
                  exact SMap.lookup_insert_self _ _ _
              · rw [if_neg hR] at h
                simp only [Option.some.injEq, Prod.mk.injEq] at h
                obtain ⟨hv, hs⟩ := h
                subst hs
                subst hv
                exact SMap.lookup_insert_self _ _ _

theorem Resolver.resolveStackedOn_success
    {recur : Resolver → MachineryPart → Option (Vec3 × Resolver)}
    {s : Resolver} {part : MachineryPart} {c : AssemblyConstraint}
    (hrec : ∀ q qp, c.parentPart = some q → SMap.lookup q s.parts = some qp →
      ∃ r, recur s qp = some r) :
    ∃ r, Resolver.resolveStackedOn recur s part c = some r := by
  unfold Resolver.resolveStackedOn
  cases hq : c.parentPart with
  | none => exact ⟨_, rfl⟩
  | some parentName =>
    dsimp only
    cases hqp : SMap.lookup parentName s.parts with
    | none => exact ⟨_, rfl⟩
    | some parentPart =>
      dsimp only
      obtain ⟨⟨pv, s1⟩, hr⟩ := hrec _ _ hq hqp
      rw [hr]
      dsimp only
      cases hbox : SMap.lookup parentName s1.boundingBoxCache with
      | none => exact ⟨_, rfl⟩
      | some parentBox => exact ⟨_, rfl⟩

theorem Resolver.resolveThreaded_success
    {recur : Resolver → MachineryPart → Option (Vec3 × Resolver)}
    {s : Resolver} {part : MachineryPart} {c : AssemblyConstraint}
    (hrec : ∀ q qp, c.threadedOn = some q → SMap.lookup q s.parts = some qp →
      ∃ r, recur s qp = some r) :
    ∃ r, Resolver.resolveThreaded recur s part c = some r := by
  unfold Resolver.resolveThreaded
  cases hq : c.threadedOn with
  | none => exact ⟨_, rfl⟩
  | some threadedPartName =>
    dsimp only
    cases hqp : SMap.lookup threadedPartName s.parts with
    | none => exact ⟨_, rfl⟩
    | some threadedPart =>
      dsimp only
      obtain ⟨⟨pv, s1⟩, hr⟩ := hrec _ _ hq hqp
      rw [hr]
      dsimp only
      exact ⟨_, rfl⟩

theorem Resolver.resolveRadial_success {tr : Trig}
    {recur : Resolver → MachineryPart → Option (Vec3 × Resolver)}
    {s : Resolver} {part : MachineryPart} {c : AssemblyConstraint}
    (hrec : ∀ q qp, c.centerPart = some q → SMap.lookup q s.parts = some qp →
      ∃ r, recur s qp = some r) :
    ∃ r, Resolver.resolveRadial tr recur s part c = some r := by
  unfold Resolver.resolveRadial
  cases hq : c.centerPart with
  | none => exact ⟨_, rfl⟩
  | some centerPartName =>
    dsimp only
    cases hqp : SMap.lookup centerPartName s.parts with
    | none => exact ⟨_, rfl⟩
    | some centerPart =>
      dsimp only
      obtain ⟨⟨pv, s1⟩, hr⟩ := hrec _ _ hq hqp
      rw [hr]
      dsimp only
      exact ⟨_, rfl⟩

theorem Resolver.resolvePosition_success (tr : Trig) (rank : String → Nat) :
    ∀ fuel (s : Resolver) (part : MachineryPart),
      acyclicRank rank s.parts = true →
      partEdgeOk rank s.parts part = true →
      rank part.name < fuel →
      ∃ r, Resolver.resolvePosition tr fuel s part = some r := by
  intro fuel
  induction fuel with
  | zero =>
    intro s part _ _ hrank
    omega
  | succ fuel ih =>
    intro s part hacyc hedge hrank
    rw [Resolver.resolvePosition]
    cases hlook : SMap.lookup part.name s.resolvedPositions with
    | some w => exact ⟨_, rfl⟩
    | none =>
      dsimp only
      cases hc : part.constraint with
      | none => exact ⟨_, rfl⟩
      | some c =>
        dsimp only
        have hrecOf : ∀ (ref : Option String), constraintRef c = ref →
            ∀ q qp, ref = some q → SMap.lookup q s.parts = some qp →
              ∃ r, Resolver.resolvePosition tr fuel s qp = some r := by
          intro ref hcr q qp hq hqp
          subst hq
          apply ih s qp hacyc
          · have hmem := SMap.lookup_mem hqp
            exact List.all_eq_true.mp hacyc _ hmem
          · have hlt : rank qp.name < rank part.name := by
              have hedge2 := hedge
              unfold partEdgeOk at hedge2
              rw [hc] at hedge2
              dsimp only at hedge2
              rw [hcr] at hedge2
              dsimp only at hedge2
              rw [hqp] at hedge2
              simp only [decide_eq_true_eq] at hedge2
              exact hedge2
            omega
        by_cases hF : c.type = "Fixed"
        · rw [if_pos hF]
          exact ⟨_, rfl⟩
        · by_cases hS : c.type = "StackedOn"
          · have hcr : constraintRef c = c.parentPart := by
              unfold constraintRef
              rw [if_pos hS]
            obtain ⟨⟨pos1, st1⟩, hr⟩ :=
              @Resolver.resolveStackedOn_success
                (fun s3 p3 => Resolver.resolvePosition tr fuel s3 p3)
                s part c (hrecOf _ hcr)
            rw [if_neg hF, if_pos hS, hr]
            exact ⟨_, rfl⟩
          · by_cases hT : c.type = "Threaded"
            · have hcr : constraintRef c = c.threadedOn := by
                unfold constraintRef
                rw [if_neg hS, if_pos hT]
              obtain ⟨⟨pos1, st1⟩, hr⟩ :=
                @Resolver.resolveThreaded_success
                  (fun s3 p3 => Resolver.resolvePosition tr fuel s3 p3)
                  s part c (hrecOf _ hcr)
              rw [if_neg hF, if_neg hS, if_pos hT, hr]
              exact ⟨_, rfl⟩
            · by_cases hR : c.type = "RadialAroundCenter"
              · have hcr : constraintRef c = c.centerPart := by
                  unfold constraintRef
                  rw [if_neg hS, if_neg hT, if_pos hR]
                obtain ⟨⟨pos1, st1⟩, hr⟩ :=
                  @Resolver.resolveRadial_success tr
                    (fun s3 p3 => Resolver.resolvePosition tr fuel s3 p3)
                    s part c (hrecOf _ hcr)
                rw [if_neg hF, if_neg hS, if_neg hT, if_pos hR, hr]
                exact ⟨_, rfl⟩
              · rw [if_neg hF, if_neg hS, if_neg hT, if_neg hR]
                exact ⟨_, rfl⟩

theorem Resolver.resolveAllGo_success (tr : Trig) (rank : String → Nat) (fuel : Nat) :
    ∀ (L : List (String × MachineryPart)) (s : Resolver),
      acyclicRank rank s.parts = true →
      (∀ e ∈ L, partEdgeOk rank s.parts e.2 = true) →
      (∀ e ∈ L, rank e.2.name < fuel) →
      ∃ s2, Resolver.resolveAllGo tr fuel L s = some s2 ∧
        Resolver.frameEq s s2 ∧
        (∀ n w, SMap.lookup n s.resolvedPositions = some w →
          SMap.lookup n s2.resolvedPositions = some w) ∧
        (∀ e ∈ L, ∃ w, SMap.lookup e.2.name s2.resolvedPositions = some w) := by
  intro L
  induction L with
  | nil =>
    intro s hacyc _ _
    exact ⟨s, rfl, Resolver.frameEq_refl s, fun n w hw => hw, by simp⟩
  | cons e rest ih =>
    intro s hacyc hedges hranks
    obtain ⟨⟨v1, s1⟩, hr1⟩ :=
      Resolver.resolvePosition_success tr rank fuel s e.2 hacyc
        (hedges e (List.mem_cons_self e rest)) (hranks e (List.mem_cons_self e rest))
    have hfr1 := Resolver.resolvePosition_frame tr fuel hr1
    have hself1 := Resolver.resolvePosition_selfCached tr hr1
    have hmono1 := Resolver.resolvePosition_mono tr fuel hr1
    obtain ⟨s2, hgo, hfr2, hmono2, hcached2⟩ := ih s1
      (by rw [hfr1.1]; exact hacyc)
      (fun e2 he2 => by rw [hfr1.1]; exact hedges e2 (List.mem_cons_of_mem _ he2))
      (fun e2 he2 => hranks e2 (List.mem_cons_of_mem _ he2))
    refine ⟨s2, ?_, ?_, ?_, ?_⟩
    · unfold Resolver.resolveAllGo
      rw [hr1]
      exact hgo
    · exact ⟨hfr2.1.trans hfr1.1, hfr2.2.1.trans hfr1.2.1, hfr2.2.2.trans hfr1.2.2⟩
    · exact fun n w hw => hmono2 n w (hmono1 n w hw)
    · intro e2 he2
      rcases List.mem_cons.mp he2 with he2 | he2
      · subst he2
        exact ⟨v1, hmono2 _ _ hself1⟩
      · exact hcached2 e2 he2

theorem Resolver.resolveAll_success (tr : Trig) (rank : String → Nat) (fuel : Nat)
    (s : Resolver)
    (hacyc : acyclicRank rank s.parts = true)
    (hfuel : ∀ e ∈ s.parts, rank e.2.name < fuel) :
    ∃ m s2, Resolver.resolveAll tr fuel s = some (m, s2) ∧
      ∀ e ∈ s.parts, ∃ w, SMap.lookup e.2.name m = some w := by
  obtain ⟨s2, hgo, hfr, hmono, hcached⟩ :=
    Resolver.resolveAllGo_success tr rank fuel s.parts
      { s with resolvedPositions := [] } hacyc (fun e he => List.all_eq_true.mp hacyc e he) hfuel
  exact ⟨s2.resolvedPositions, s2, by unfold Resolver.resolveAll; rw [hgo], hcached⟩



/-- C1: for every part whose constraint is StackedOn with a registered parent,
when both bounding boxes are cached, resolvePosition returns parentPosition
plus (manualOffsetX, finalY, manualOffsetZ), where finalY is the manual Y
offset when it is nonzero and parentBox.max.y - childBox.min.y otherwise. -/
theorem c1_stackedOn_flush_and_override (tr : Trig) (fuel : Nat) (s : Resolver)
    (part parentPart : MachineryPart) (c : AssemblyConstraint) (parentName : String)
    (parentBox childBox : Box3) (pp : Vec3) (s1 : Resolver)
    (hmiss : SMap.lookup part.name s.resolvedPositions = none)
    (hc : part.constraint = some c)
    (htype : c.type = "StackedOn")
    (hparent : c.parentPart = some parentName)
    (hreg : SMap.lookup parentName s.parts = some parentPart)
    (hresolve : Resolver.resolvePosition tr fuel s parentPart = some (pp, s1))
    (hpBox : SMap.lookup parentName s.boundingBoxCache = some parentBox)
    (hcBox : SMap.lookup part.name s.boundingBoxCache = some childBox) :
    ∃ s2, Resolver.resolvePosition tr (fuel + 1) s part =
      some (pp.add ⟨(c.offset.getD Vec3.zero).x,
        (if (c.offset.getD Vec3.zero).y ≠ 0 then (c.offset.getD Vec3.zero).y
         else parentBox.max.y - childBox.min.y),
        (c.offset.getD Vec3.zero).z⟩, s2) := by
  have hbb := (Resolver.resolvePosition_frame tr fuel hresolve).2.2
  have hstack : Resolver.resolveStackedOn
      (fun s3 p3 => Resolver.resolvePosition tr fuel s3 p3) s part c =
      some (pp.add ⟨(c.offset.getD Vec3.zero).x,
        (if (c.offset.getD Vec3.zero).y ≠ 0 then (c.offset.getD Vec3.zero).y
         else parentBox.max.y - childBox.min.y),
        (c.offset.getD Vec3.zero).z⟩, s1) := by
    unfold Resolver.resolveStackedOn
    rw [hparent]
    dsimp only
    rw [hreg]
    dsimp only
    rw [hresolve]
    dsimp only
    rw [hbb, hpBox]
    dsimp only
    rw [hcBox]
  have hF : ¬ c.type = "Fixed" := by rw [htype]; decide
  rw [Resolver.resolvePosition]
  rw [hmiss]
  dsimp only
  rw [hc]
  dsimp only
  rw [if_neg hF, if_pos htype, hstack]
  exact ⟨_, rfl⟩

/-- Witness for C1 at the numbers of the spec: parent box top Y = 10, child
box bottom Y = -2; zero manual offset gives resolved Y = 12 and manual offset
Y = 5 gives resolved Y = 5. -/
theorem c1_witness :
    (SMap.lookup namePlate stackedFlushStateW.boundingBoxCache = some plateBoxW ∧
      SMap.lookup nameBase stackedFlushStateW.boundingBoxCache = some baseBoxW) ∧
    (∃ s2, Resolver.resolvePosition trigW 2 stackedFlushStateW plateFlushW =
      some (⟨0, 12, 0⟩, s2)) ∧
    (∃ s2, Resolver.resolvePosition trigW 2 stackedOffsetStateW plateOffsetW =
      some (⟨0, 5, 0⟩, s2)) := by
  refine ⟨⟨by decide, by decide⟩, ?_, ?_⟩
  · obtain ⟨s2, h⟩ := c1_stackedOn_flush_and_override trigW 1 stackedFlushStateW
      plateFlushW basePartW { type := "StackedOn", parentPart := some nameBase }
      nameBase baseBoxW plateBoxW ⟨0, 0, 0⟩
      { stackedFlushStateW with resolvedPositions := [(nameBase, ⟨0, 0, 0⟩)] }
      (by decide) rfl rfl rfl (by decide) (by decide) (by decide) (by decide)
    refine ⟨s2, ?_⟩
    rw [h]
    norm_num [Vec3.add, Vec3.zero, baseBoxW, plateBoxW]
  · obtain ⟨s2, h⟩ := c1_stackedOn_flush_and_override trigW 1 stackedOffsetStateW
      plateOffsetW basePartW
      { type := "StackedOn", parentPart := some nameBase, offset := some ⟨0, 5, 0⟩ }
      nameBase baseBoxW plateBoxW ⟨0, 0, 0⟩
      { stackedOffsetStateW with resolvedPositions := [(nameBase, ⟨0, 0, 0⟩)] }
      (by decide) rfl rfl rfl (by decide) (by decide) (by decide) (by decide)
    refine ⟨s2, ?_⟩
    rw [h]
    norm_num [Vec3.add, Vec3.zero]

/-- C2: for every part whose constraint is Threaded on a registered rod,
resolvePosition returns rodPosition + (0, rodHeight * threadDepth, 0) + the
manual offset, where rodHeight is the cached bounding-box height of the rod
and threadDepth defaults to 1/2; threadDepth 0 yields the rod position itself
(zero offset) and threadDepth 1 yields rodPosition.y + rodHeight on Y. -/
theorem c2_threaded_depth (tr : Trig) (fuel : Nat) (s : Resolver)
    (part rodPart : MachineryPart) (c : AssemblyConstraint) (rodName : String)
    (rodBox : Box3) (rp : Vec3) (s1 : Resolver)
    (hmiss : SMap.lookup part.name s.resolvedPositions = none)
    (hc : part.constraint = some c)
    (htype : c.type = "Threaded")
    (hrod : c.threadedOn = some rodName)
    (hreg : SMap.lookup rodName s.parts = some rodPart)
    (hresolve : Resolver.resolvePosition tr fuel s rodPart = some (rp, s1))
    (hbox : SMap.lookup rodName s.boundingBoxCache = some rodBox) :
    (∃ s2, Resolver.resolvePosition tr (fuel + 1) s part =
      some ((rp.add ⟨0, rodBox.getSize.y * c.threadDepth.getD (1 / 2), 0⟩).add
        (c.offset.getD Vec3.zero), s2)) ∧
    (c.threadDepth = some 0 → c.offset = none →
      ∃ s2, Resolver.resolvePosition tr (fuel + 1) s part = some (rp, s2)) ∧
    (c.threadDepth = some 1 → c.offset = none →
      ∃ v s2, Resolver.resolvePosition tr (fuel + 1) s part = some (v, s2) ∧
        v.y = rp.y + rodBox.getSize.y) := by
  have hbb := (Resolver.resolvePosition_frame tr fuel hresolve).2.2
  have hH : s1.getPartHeight rodName = rodBox.getSize.y := by
    unfold Resolver.getPartHeight Resolver.getPartSize
    rw [hbb, hbox]
  have hthread : Resolver.resolveThreaded
      (fun s3 p3 => Resolver.resolvePosition tr fuel s3 p3) s part c =
      some ((rp.add ⟨0, rodBox.getSize.y * c.threadDepth.getD (1 / 2), 0⟩).add
        (c.offset.getD Vec3.zero), s1) := by
    unfold Resolver.resolveThreaded
    rw [hrod]
    dsimp only
    rw [hreg]
    dsimp only
    rw [hresolve]
    dsimp only
    rw [hH]
  have hF : ¬ c.type = "Fixed" := by rw [htype]; decide
  have hS : ¬ c.type = "StackedOn" := by rw [htype]; decide
  have hmain : ∃ s2, Resolver.resolvePosition tr (fuel + 1) s part =
      some ((rp.add ⟨0, rodBox.getSize.y * c.threadDepth.getD (1 / 2), 0⟩).add
        (c.offset.getD Vec3.zero), s2) := by
    rw [Resolver.resolvePosition]
    rw [hmiss]
    dsimp only
    rw [hc]
    dsimp only
    rw [if_neg hF, if_neg hS, if_pos htype, hthread]
    exact ⟨_, rfl⟩
  refine ⟨hmain, ?_, ?_⟩
  · intro hdep hoff
    obtain ⟨s2, h⟩ := hmain
    refine ⟨s2, ?_⟩
    rw [h, hdep, hoff]
    obtain ⟨rx, ry, rz⟩ := rp
    simp [Vec3.add, Vec3.zero]
  · intro hdep hoff
    obtain ⟨s2, h⟩ := hmain
    refine ⟨_, s2, h, ?_⟩
    rw [hdep, hoff]
    obtain ⟨rx, ry, rz⟩ := rp
    simp [Vec3.add, Vec3.zero]

/-- Witness for C2: rod fixed at (0, 5, 0) with box height 20; depth 4/5
places the nut at Y = 21, depth 0 at the rod position itself, depth 1 at
Y = 5 + 20 = 25. -/
theorem c2_witness :
    (SMap.lookup nameRod threadedStateW.boundingBoxCache = some rodBoxW) ∧
    (∃ s2, Resolver.resolvePosition trigW 2 threadedStateW nutPartW =
      some (⟨0, 21, 0⟩, s2)) ∧
    (∃ s2, Resolver.resolvePosition trigW 2 threadedState0W nutPart0W =
      some (⟨0, 5, 0⟩, s2)) ∧
    (∃ v s2, Resolver.resolvePosition trigW 2 threadedState1W nutPart1W =
      some (v, s2) ∧ v.y = 25) := by
  refine ⟨by decide, ?_, ?_, ?_⟩
  · obtain ⟨⟨s2, h⟩, -, -⟩ := c2_threaded_depth trigW 1 threadedStateW
      nutPartW rodPartW
      { type := "Threaded", threadedOn := some nameRod, threadDepth := some (4 / 5) }
      nameRod rodBoxW ⟨0, 5, 0⟩
      { threadedStateW with resolvedPositions := [(nameRod, ⟨0, 5, 0⟩)] }
      (by decide) rfl rfl rfl (by decide) rfl (by decide)
    refine ⟨s2, ?_⟩
    rw [h]
    norm_num [Vec3.add, Vec3.zero, rodBoxW, Box3.getSize]
  · obtain ⟨-, hdep0, -⟩ := c2_threaded_depth trigW 1 threadedState0W
      nutPart0W rodPartW
      { type := "Threaded", threadedOn := some nameRod, threadDepth := some 0 }
      nameRod rodBoxW ⟨0, 5, 0⟩
      { threadedState0W with resolvedPositions := [(nameRod, ⟨0, 5, 0⟩)] }
      (by decide) rfl rfl rfl (by decide) rfl (by decide)
    exact hdep0 rfl rfl
  · obtain ⟨-, -, hdep1⟩ := c2_threaded_depth trigW 1 threadedState1W
      nutPart1W rodPartW
      { type := "Threaded", threadedOn := some nameRod, threadDepth := some 1 }
      nameRod rodBoxW ⟨0, 5, 0⟩
      { threadedState1W with resolvedPositions := [(nameRod, ⟨0, 5, 0⟩)] }
      (by decide) rfl rfl rfl (by decide) rfl (by decide)
    obtain ⟨v, s2, hv, hy⟩ := hdep1 rfl rfl
    refine ⟨v, s2, hv, ?_⟩
    rw [hy]
    norm_num [rodBoxW, Box3.getSize]

theorem Resolver.resolveThreaded_part_congr
    (recur : Resolver → MachineryPart → Option (Vec3 × Resolver))
    (s : Resolver) (p1 p2 : MachineryPart) (c : AssemblyConstraint) :
    Resolver.resolveThreaded recur s p1 c = Resolver.resolveThreaded recur s p2 c := rfl

theorem Resolver.resolveRadial_part_congr (tr : Trig)
    (recur : Resolver → MachineryPart → Option (Vec3 × Resolver))
    (s : Resolver) (p1 p2 : MachineryPart) (c : AssemblyConstraint) :
    Resolver.resolveRadial tr recur s p1 c = Resolver.resolveRadial tr recur s p2 c := rfl

theorem Resolver.resolveStackedOn_name_congr
    (recur : Resolver → MachineryPart → Option (Vec3 × Resolver))
    (s : Resolver) (p1 p2 : MachineryPart) (c : AssemblyConstraint)
    (hname : p1.name = p2.name) :
    Resolver.resolveStackedOn recur s p1 c = Resolver.resolveStackedOn recur s p2 c := by
  unfold Resolver.resolveStackedOn
  rw [hname]

theorem Resolver.resolvePosition_ground_irrelevant (tr : Trig) (fuel : Nat)
    (s : Resolver) (part : MachineryPart) (g : Option Bool) :
    Resolver.resolvePosition tr fuel s { part with isGround := g } =
      Resolver.resolvePosition tr fuel s part := by
  cases fuel with
  | zero => rfl
  | succ fuel =>
    rw [Resolver.resolvePosition, Resolver.resolvePosition]
    have hname : ({ part with isGround := g } : MachineryPart).name = part.name := rfl
    have hcon : ({ part with isGround := g } : MachineryPart).constraint = part.constraint := rfl
    have hoff : ({ part with isGround := g } : MachineryPart).assemblyOffset =
      part.assemblyOffset := rfl
    rw [hname, hcon, hoff]
    cases SMap.lookup part.name s.resolvedPositions with
    | some v => rfl
    | none =>
      dsimp only
      cases part.constraint with
      | none => rfl
      | some c =>
        dsimp only
        rw [Resolver.resolveStackedOn_name_congr
          (fun s3 p3 => Resolver.resolvePosition tr fuel s3 p3) s
          { name := part.name, file := part.file, position := part.position
            assemblyOffset := part.assemblyOffset
            explodeDirection := part.explodeDirection
            isGround := g, constraint := some c }
          part c rfl,
          Resolver.resolveThreaded_part_congr
            (fun s3 p3 => Resolver.resolvePosition tr fuel s3 p3) s _ part c,
          Resolver.resolveRadial_part_congr tr
            (fun s3 p3 => Resolver.resolvePosition tr fuel s3 p3) s _ part c]

/-- C3 counterexample: a part with isGround = true, assemblyOffset (1, 2, 3)
and no constraint resolves to (1, 2, 3), not the origin — resolvePosition
never reads isGround. -/
theorem c3_counterexample :
    groundOffsetPartW.isGround = some true ∧
    (Resolver.resolvePosition trigW 1 groundStateW groundOffsetPartW).map Prod.fst =
      some ⟨1, 2, 3⟩ ∧
    (⟨1, 2, 3⟩ : Vec3) ≠ Vec3.zero := by
  refine ⟨rfl, by decide, by decide⟩

/-- C3 amended: resolvePosition ignores isGround entirely — a ground part
resolves by the same rules as any other part — and a ground part with no
constraint and no assemblyOffset (the configuration the spec intends)
resolves to the origin. -/
theorem c3_ground_not_special (tr : Trig) :
    (∀ fuel s (part : MachineryPart) g,
      Resolver.resolvePosition tr fuel s { part with isGround := g } =
        Resolver.resolvePosition tr fuel s part) ∧
    (∀ fuel s (part : MachineryPart),
      part.constraint = none → part.assemblyOffset = none →
      SMap.lookup part.name s.resolvedPositions = none →
      ∃ s2, Resolver.resolvePosition tr (fuel + 1) s part = some (Vec3.zero, s2)) := by
  constructor
  · intro fuel s part g
    exact Resolver.resolvePosition_ground_irrelevant tr fuel s part g
  · intro fuel s part hc hoff hmiss
    rw [Resolver.resolvePosition, hmiss]
    dsimp only
    rw [hc]
    dsimp only
    rw [hoff]
    exact ⟨_, rfl⟩

/-- Witness for the amended C3: flipping isGround does not change the result,
and the plain ground part resolves to the origin. -/
theorem c3_witness :
    (Resolver.resolvePosition trigW 1 groundPlainStateW
        { groundPlainPartW with isGround := some false } =
      Resolver.resolvePosition trigW 1 groundPlainStateW groundPlainPartW) ∧
    (∃ s2, Resolver.resolvePosition trigW 1 groundPlainStateW groundPlainPartW =
      some (Vec3.zero, s2)) := by
  obtain ⟨h1, h2⟩ := c3_ground_not_special trigW
  exact ⟨h1 1 groundPlainStateW groundPlainPartW (some false),
    h2 0 groundPlainStateW groundPlainPartW rfl rfl (by decide)⟩

/-- C4: for a registry whose followed constraint edges admit a decreasing
rank certificate (the graph is a DAG and every chain bottoms out at a part
with no followed edge, such as Fixed or no constraint), resolveAll terminates
and returns a position for every registered part. -/
theorem c4_resolveAll_terminates (tr : Trig) (rank : String → Nat) (fuel : Nat)
    (s : Resolver)
    (hacyc : acyclicRank rank s.parts = true)
    (hfuel : ∀ e ∈ s.parts, rank e.2.name < fuel) :
    ∃ m s2, Resolver.resolveAll tr fuel s = some (m, s2) ∧
      ∀ e ∈ s.parts, ∃ w, SMap.lookup e.2.name m = some w :=
  Resolver.resolveAll_success tr rank fuel s hacyc hfuel

/-- Witness for C4: the base, plate, nut chain terminates and all three
parts receive positions. -/
theorem c4_witness :
    acyclicRank rankW chainStateW.parts = true ∧
    (∀ e ∈ chainStateW.parts, rankW e.2.name < 3) ∧
    (∃ m s2, Resolver.resolveAll trigW 3 chainStateW = some (m, s2) ∧
      ∀ e ∈ chainStateW.parts, ∃ w, SMap.lookup e.2.name m = some w) := by
  refine ⟨by decide, by decide, ?_⟩
  exact c4_resolveAll_terminates trigW rankW 3 chainStateW (by decide) (by decide)

/-- C5: updatePartConstraint on a known part replaces the constraint and
drops exactly that part's cached position, leaving other cached positions,
the box cache and the mesh cache untouched; on an unknown part it changes
nothing; registerMesh and setGlobalScale clear the whole position cache. -/
theorem c5_constraint_update_and_cache_invalidation (s : Resolver)
    (partName : String) (c : AssemblyConstraint) :
    (∀ part, SMap.lookup partName s.parts = some part →
      keysNodup s.resolvedPositions →
      SMap.lookup partName (s.updatePartConstraint partName c).parts =
          some { part with constraint := some c } ∧
      SMap.lookup partName (s.updatePartConstraint partName c).resolvedPositions = none ∧
      (∀ n, n ≠ partName →
        SMap.lookup n (s.updatePartConstraint partName c).resolvedPositions =
          SMap.lookup n s.resolvedPositions) ∧
      (s.updatePartConstraint partName c).boundingBoxCache = s.boundingBoxCache ∧
      (s.updatePartConstraint partName c).meshCache = s.meshCache) ∧
    (SMap.lookup partName s.parts = none → s.updatePartConstraint partName c = s) ∧
    (∀ mesh sc, (s.registerMesh partName mesh sc).resolvedPositions = []) ∧
    (∀ sc, (s.setGlobalScale sc).resolvedPositions = []) := by
  refine ⟨?_, ?_, ?_, ?_⟩
  · intro part hreg hnd
    unfold Resolver.updatePartConstraint
    rw [hreg]
    exact ⟨SMap.lookup_insert_self _ _ _,
      SMap.lookup_eraseKey_self _ _ hnd,
      fun n hn => SMap.lookup_eraseKey_ne _ _ _ hn,
      rfl, rfl⟩
  · intro hnone
    unfold Resolver.updatePartConstraint
    rw [hnone]
  · intro mesh sc
    rfl
  · intro sc
    rfl

/-- Witness for C5 on a state with two cached positions: updating the base
part removes only its cache entry, the plate entry and the box cache stay,
and registerMesh / setGlobalScale clear the whole cache. -/
theorem c5_witness :
    SMap.lookup nameBase cachedStateW.parts = some basePartW ∧
    keysNodup cachedStateW.resolvedPositions ∧
    SMap.lookup nameBase
        (cachedStateW.updatePartConstraint nameBase newConstraintW).resolvedPositions =
      none ∧
    SMap.lookup namePlate
        (cachedStateW.updatePartConstraint nameBase newConstraintW).resolvedPositions =
      some ⟨0, 12, 0⟩ ∧
    (cachedStateW.updatePartConstraint nameBase newConstraintW).boundingBoxCache =
      cachedStateW.boundingBoxCache ∧
    (cachedStateW.registerMesh namePlate meshW 1).resolvedPositions = [] ∧
    (cachedStateW.setGlobalScale 2).resolvedPositions = [] := by
  obtain ⟨h1, -, h3, h4⟩ :=
    c5_constraint_update_and_cache_invalidation cachedStateW nameBase newConstraintW
  obtain ⟨-, hself, hother, hbox, -⟩ := h1 basePartW (by decide) (by decide)
  refine ⟨by decide, by decide, hself, ?_, hbox, h3 meshW 1, h4 2⟩
  rw [hother namePlate (by decide)]
  decide

/-- C7 counterexample: with the parent box cached (top Y = 10, height 11) and
the child box missing, resolution yields parent position + (0, 10, 0) — the
flush rule with an assumed child bottom of 0 — not parent position plus the
parent height (11) as the claim states. -/
theorem c7_counterexample :
    SMap.lookup namePlate stackedNoChildBoxStateW.boundingBoxCache = none ∧
    (Resolver.resolvePosition trigW 2 stackedNoChildBoxStateW plateFlushW).map Prod.fst =
      some ⟨0, 10, 0⟩ ∧
    (Resolver.resolvePosition trigW 1 stackedNoChildBoxStateW basePartW).map Prod.fst =
      some ⟨0, 0, 0⟩ ∧
    (⟨0, 0, 0⟩ : Vec3).add ⟨0, Resolver.getPartHeight stackedNoChildBoxStateW nameBase, 0⟩ =
      ⟨0, 11, 0⟩ ∧
    (⟨0, 10, 0⟩ : Vec3) ≠ ⟨0, 11, 0⟩ := by
  refine ⟨by decide, ?_, by decide, ?_, by decide⟩
  · simp +decide [Resolver.resolvePosition, Resolver.resolveStackedOn, SMap.lookup,
      stackedNoChildBoxStateW, stackedFlushStateW, plateFlushW, basePartW, baseBoxW,
      namePlate, nameBase, Vec3.add, Vec3.zero, SMap.insert]
  · norm_num [Vec3.add, Resolver.getPartHeight, Resolver.getPartSize, SMap.lookup,
      Box3.getSize, stackedNoChildBoxStateW, stackedFlushStateW, baseBoxW, nameBase]

/-- C7 amended: when the parent box is missing, resolution degrades to
parent position plus the cached parent height — which is 0, the box being
absent — plus the full manual offset; when only the child box is missing,
the normal flush rule applies with the child bottom assumed to be 0. -/
theorem c7_missing_box_fallback (tr : Trig) (fuel : Nat) (s : Resolver)
    (part parentPart : MachineryPart) (c : AssemblyConstraint) (parentName : String)
    (pp : Vec3) (s1 : Resolver)
    (hmiss : SMap.lookup part.name s.resolvedPositions = none)
    (hc : part.constraint = some c)
    (htype : c.type = "StackedOn")
    (hparent : c.parentPart = some parentName)
    (hreg : SMap.lookup parentName s.parts = some parentPart)
    (hresolve : Resolver.resolvePosition tr fuel s parentPart = some (pp, s1)) :
    (SMap.lookup parentName s.boundingBoxCache = none →
      (∃ s2, Resolver.resolvePosition tr (fuel + 1) s part =
        some (pp.add ⟨(c.offset.getD Vec3.zero).x,
          Resolver.getPartHeight s parentName + (c.offset.getD Vec3.zero).y,
          (c.offset.getD Vec3.zero).z⟩, s2)) ∧
      Resolver.getPartHeight s parentName = 0) ∧
    (∀ parentBox, SMap.lookup parentName s.boundingBoxCache = some parentBox →
      SMap.lookup part.name s.boundingBoxCache = none →
      ∃ s2, Resolver.resolvePosition tr (fuel + 1) s part =
        some (pp.add ⟨(c.offset.getD Vec3.zero).x,
          (if (c.offset.getD Vec3.zero).y ≠ 0 then (c.offset.getD Vec3.zero).y
           else parentBox.max.y - 0),
          (c.offset.getD Vec3.zero).z⟩, s2)) := by
  have hbb := (Resolver.resolvePosition_frame tr fuel hresolve).2.2
  have hF : ¬ c.type = "Fixed" := by rw [htype]; decide
  constructor
  · intro hnobox
    have hH : Resolver.getPartHeight s parentName = 0 := by
      unfold Resolver.getPartHeight Resolver.getPartSize
      rw [hnobox]
      rfl
    have hHs1 : s1.getPartHeight parentName = Resolver.getPartHeight s parentName := by
      unfold Resolver.getPartHeight Resolver.getPartSize
      rw [hbb]
    have hstack : Resolver.resolveStackedOn
        (fun s3 p3 => Resolver.resolvePosition tr fuel s3 p3) s part c =
        some (pp.add ⟨(c.offset.getD Vec3.zero).x,
          Resolver.getPartHeight s parentName + (c.offset.getD Vec3.zero).y,
          (c.offset.getD Vec3.zero).z⟩, s1) := by
      unfold Resolver.resolveStackedOn
      rw [hparent]
      dsimp only
      rw [hreg]
      dsimp only
      rw [hresolve]
      dsimp only
      rw [hbb, hnobox]
      dsimp only
      rw [hHs1]
    refine ⟨?_, hH⟩
    rw [Resolver.resolvePosition, hmiss]
    dsimp only
    rw [hc]
    dsimp only
    rw [if_neg hF, if_pos htype, hstack]
    exact ⟨_, rfl⟩
  · intro parentBox hpBox hnochild
    have hstack : Resolver.resolveStackedOn
        (fun s3 p3 => Resolver.resolvePosition tr fuel s3 p3) s part c =
        some (pp.add ⟨(c.offset.getD Vec3.zero).x,
          (if (c.offset.getD Vec3.zero).y ≠ 0 then (c.offset.getD Vec3.zero).y
           else parentBox.max.y - 0),
          (c.offset.getD Vec3.zero).z⟩, s1) := by
      unfold Resolver.resolveStackedOn
      rw [hparent]
      dsimp only
      rw [hreg]
      dsimp only
      rw [hresolve]
      dsimp only
      rw [hbb, hpBox]
      dsimp only
      rw [hnochild]
    rw [Resolver.resolvePosition, hmiss]
    dsimp only
    rw [hc]
    dsimp only
    rw [if_neg hF, if_pos htype, hstack]
    exact ⟨_, rfl⟩

/-- Witness for the amended C7: with no cached boxes the plate lands at the
base position itself (height 0); with only the child box missing it lands at
Y = 10, the parent top. -/
theorem c7_witness :
    (∃ s2, Resolver.resolvePosition trigW 2 stackedNoBoxStateW plateFlushW =
      some (⟨0, 0, 0⟩, s2)) ∧
    Resolver.getPartHeight stackedNoBoxStateW nameBase = 0 ∧
    (∃ s2, Resolver.resolvePosition trigW 2 stackedNoChildBoxStateW plateFlushW =
      some (⟨0, 10, 0⟩, s2)) := by
  obtain ⟨ha, -⟩ := c7_missing_box_fallback trigW 1 stackedNoBoxStateW
    plateFlushW basePartW { type := "StackedOn", parentPart := some nameBase }
    nameBase ⟨0, 0, 0⟩
    { stackedNoBoxStateW with resolvedPositions := [(nameBase, ⟨0, 0, 0⟩)] }
    (by decide) rfl rfl rfl (by decide) rfl
  obtain ⟨⟨s2a, hA⟩, hH⟩ := ha (by decide)
  obtain ⟨-, hb⟩ := c7_missing_box_fallback trigW 1 stackedNoChildBoxStateW
    plateFlushW basePartW { type := "StackedOn", parentPart := some nameBase }
    nameBase ⟨0, 0, 0⟩
    { stackedNoChildBoxStateW with resolvedPositions := [(nameBase, ⟨0, 0, 0⟩)] }
    (by decide) rfl rfl rfl (by decide) rfl
  obtain ⟨s2b, hB⟩ := hb baseBoxW (by decide) (by decide)
  refine ⟨⟨s2a, ?_⟩, hH, ⟨s2b, ?_⟩⟩
  · rw [hA, hH]
    norm_num [Vec3.add, Vec3.zero]
  · rw [hB]
    norm_num [Vec3.add, Vec3.zero, baseBoxW]

/-- C8: calculateExplodePosition is a pure function of its arguments
(evaluating it twice on equal inputs gives identical output); a ground part
gets the constant zero offset for every factor, so it never moves; and factor
0 gives the zero offset for every part, reproducing the assembled pose. -/
theorem c8_explode_deterministic_ground_assembled :
    (∀ (p1 p2 c1 c2 : VecR) (f1 f2 : ℝ) (d1 d2 : Option VecR) (g1 g2 : Option Bool),
      p1 = p2 → c1 = c2 → f1 = f2 → d1 = d2 → g1 = g2 →
      calculateExplodePosition p1 c1 f1 d1 g1 = calculateExplodePosition p2 c2 f2 d2 g2) ∧
    (∀ (p c : VecR) (f : ℝ) (d : Option VecR),
      calculateExplodePosition p c f d (some true) = ⟨0, 0, 0⟩) ∧
    (∀ (p c : VecR) (d : Option VecR) (g : Option Bool),
      calculateExplodePosition p c 0 d g = ⟨0, 0, 0⟩) := by
  refine ⟨?_, ?_, ?_⟩
  · intro p1 p2 c1 c2 f1 f2 d1 d2 g1 g2 hp hc hf hd hg
    rw [hp, hc, hf, hd, hg]
  · intro p c f d
    rfl
  · intro p c d g
    unfold calculateExplodePosition
    by_cases hg : g.getD false
    · rw [if_pos hg]
    · rw [if_neg hg]
      cases d <;> simp [VecR.smul]

/-- Witness for C8 at concrete inputs: equal inputs give equal outputs, a
ground part at factor 3/4 stays at the zero offset, and factor 0 gives the
zero offset. -/
theorem c8_witness :
    ((⟨1, 2, 3⟩ : VecR) = ⟨1, 2, 3⟩) ∧
    calculateExplodePosition ⟨1, 2, 3⟩ ⟨0, 0, 0⟩ (1 / 2) (some ⟨0, 1, 0⟩) none =
      calculateExplodePosition ⟨1, 2, 3⟩ ⟨0, 0, 0⟩ (1 / 2) (some ⟨0, 1, 0⟩) none ∧
    calculateExplodePosition ⟨1, 2, 3⟩ ⟨0, 0, 0⟩ (3 / 4) none (some true) = ⟨0, 0, 0⟩ ∧
    calculateExplodePosition ⟨1, 2, 3⟩ ⟨0, 0, 0⟩ 0 none none = ⟨0, 0, 0⟩ := by
  obtain ⟨h1, h2, h3⟩ := c8_explode_deterministic_ground_assembled
  exact ⟨rfl, h1 _ _ _ _ _ _ _ _ _ _ rfl rfl rfl rfl rfl, h2 _ _ _ _, h3 _ _ _ _⟩

/-- C9: calculateMateTransform on a concentric mate, and on any mate whose
type tag matches no switch case, returns success = false together with a
nonempty error string — it never produces a transform for those inputs. -/
theorem c9_mate_failure_contract (mate : MateConstraint) (fA fB : Face) :
    (mate.type = "concentric" →
      (calculateMateTransform mate fA fB).success = false ∧
      ∃ e, (calculateMateTransform mate fA fB).error = some e ∧ e ≠ "") ∧
    (mate.type ≠ "coincident" → mate.type ≠ "parallel" → mate.type ≠ "perpendicular" →
      mate.type ≠ "concentric" → mate.type ≠ "distance" →
      (calculateMateTransform mate fA fB).success = false ∧
      ∃ e, (calculateMateTransform mate fA fB).error = some e ∧ e ≠ "") := by
  constructor
  · intro ht
    have hco : ¬ mate.type = "coincident" := by rw [ht]; decide
    have hpa : ¬ mate.type = "parallel" := by rw [ht]; decide
    have hpe : ¬ mate.type = "perpendicular" := by rw [ht]; decide
    unfold calculateMateTransform
    rw [if_neg hco, if_neg hpa, if_neg hpe, if_pos ht]
    exact ⟨rfl, "Concentric mate not implemented yet", rfl, by decide⟩
  · intro h1 h2 h3 h4 h5
    unfold calculateMateTransform
    rw [if_neg h1, if_neg h2, if_neg h3, if_neg h4, if_neg h5]
    refine ⟨rfl, "Unknown mate type: " ++ mate.type, rfl, ?_⟩
    intro hemp
    have hlen := congrArg String.length hemp
    rw [String.length_append] at hlen
    have h19 : ("Unknown mate type: ").length = 19 := rfl
    have h0 : ("").length = 0 := rfl
    rw [h19, h0] at hlen
    omega

/-- Witness for C9: the concentric mate and a tangent mate (no switch case)
between two concrete faces both fail with a nonempty error. -/
theorem c9_witness :
    concentricMateW.type = "concentric" ∧
    ((calculateMateTransform concentricMateW faceW faceW2).success = false ∧
      ∃ e, (calculateMateTransform concentricMateW faceW faceW2).error = some e ∧ e ≠ "") ∧
    ((calculateMateTransform tangentMateW faceW faceW2).success = false ∧
      ∃ e, (calculateMateTransform tangentMateW faceW faceW2).error = some e ∧ e ≠ "") := by
  refine ⟨rfl, ?_, ?_⟩
  · exact (c9_mate_failure_contract concentricMateW faceW faceW2).1 rfl
  · exact (c9_mate_failure_contract tangentMateW faceW faceW2).2
      (by decide) (by decide) (by decide) (by decide) (by decide)

theorem SMap.mem_keys_insert {A : Type} (k x : String) (v : A) :
    ∀ m : List (String × A), x ∈ (SMap.insert k v m).map Prod.fst →
      x ∈ m.map Prod.fst ∨ x = k
  | [], h => by
    rw [SMap.insert] at h
    simp only [List.map_cons, List.map_nil, List.mem_singleton] at h
    exact Or.inr h
  | e :: rest, h => by
    by_cases he : e.1 = k
    · rw [SMap.insert, if_pos he] at h
      simp only [List.map_cons, List.mem_cons] at h
      rcases h with h | h
      · exact Or.inr (he ▸ h)
      · exact Or.inl (List.mem_cons_of_mem _ h)
    · rw [SMap.insert, if_neg he] at h
      simp only [List.map_cons, List.mem_cons] at h
      rcases h with h | h
      · exact Or.inl (List.mem_cons.mpr (Or.inl h))
      · rcases SMap.mem_keys_insert k x v rest h with h2 | h2
        · exact Or.inl (List.mem_cons_of_mem _ h2)
        · exact Or.inr h2

theorem SMap.keysNodup_insert {A : Type} (k : String) (v : A) :
    ∀ m : List (String × A), keysNodup m → keysNodup (SMap.insert k v m)
  | [], _ => by simp [SMap.insert, keysNodup]
  | e :: rest, h => by
    simp only [keysNodup, List.map_cons, List.nodup_cons] at h
    by_cases he : e.1 = k
    · subst he
      rw [SMap.insert, if_pos rfl]
      simp only [keysNodup, List.map_cons, List.nodup_cons]
      exact ⟨h.1, h.2⟩
    · rw [SMap.insert, if_neg he]
      simp only [keysNodup, List.map_cons, List.nodup_cons]
      refine ⟨?_, SMap.keysNodup_insert k v rest h.2⟩
      intro hmem
      rcases SMap.mem_keys_insert k e.1 v rest hmem with h2 | h2
      · exact h.1 h2
      · exact he h2

/-- C10: a non-fatal constraint failure (missing reference field, reference
to an unregistered part, or unknown type tag) caches the zero vector under
the part name exactly like a successful result; every later resolvePosition
for that part returns the cached value with the state untouched; and the
entry goes away only through updatePartConstraint on that part, registerMesh,
setGlobalScale, resolveAll (which clears the cache before recomputing) or
clearCache. -/
theorem c10_error_caches_zero (tr : Trig) (fuel : Nat) (s : Resolver)
    (part : MachineryPart) (c : AssemblyConstraint)
    (hmiss : SMap.lookup part.name s.resolvedPositions = none)
    (hc : part.constraint = some c)
    (herr : constraintErrorCase s c) :
    Resolver.resolvePosition tr (fuel + 1) s part =
      some (Vec3.zero,
        { s with resolvedPositions :=
            SMap.insert part.name Vec3.zero s.resolvedPositions }) ∧
    (∀ (fuel2 : Nat) (s3 : Resolver) (v : Vec3),
      SMap.lookup part.name s3.resolvedPositions = some v →
      Resolver.resolvePosition tr (fuel2 + 1) s3 part = some (v, s3)) ∧
    (∀ (c2 : AssemblyConstraint) (p0 : MachineryPart),
      SMap.lookup part.name s.parts = some p0 →
      keysNodup s.resolvedPositions →
      SMap.lookup part.name
        (({ s with resolvedPositions :=
            SMap.insert part.name Vec3.zero s.resolvedPositions
          } : Resolver).updatePartConstraint part.name c2).resolvedPositions = none) ∧
    (∀ (pn : String) (mesh : Mesh) (sc : ℚ),
      (({ s with resolvedPositions :=
          SMap.insert part.name Vec3.zero s.resolvedPositions
        } : Resolver).registerMesh pn mesh sc).resolvedPositions = []) ∧
    (∀ sc : ℚ,
      (({ s with resolvedPositions :=
          SMap.insert part.name Vec3.zero s.resolvedPositions
        } : Resolver).setGlobalScale sc).resolvedPositions = []) ∧
    (({ s with resolvedPositions :=
        SMap.insert part.name Vec3.zero s.resolvedPositions
      } : Resolver).clearCache.resolvedPositions = []) ∧
    (∀ fuel2 : Nat,
      Resolver.resolveAll tr fuel2
        ({ s with resolvedPositions :=
            SMap.insert part.name Vec3.zero s.resolvedPositions } : Resolver) =
      Resolver.resolveAll tr fuel2 ({ s with resolvedPositions := [] } : Resolver)) := by
  refine ⟨?_, ?_, ?_, ?_, ?_, rfl, fun fuel2 => rfl⟩
  · rw [Resolver.resolvePosition, hmiss]
    dsimp only
    rw [hc]
    dsimp only
    rcases herr with ⟨ht, hcase⟩ | ⟨ht, hcase⟩ | ⟨ht, hcase⟩ | ⟨h1, h2, h3, h4⟩
    · have hF : ¬ c.type = "Fixed" := by rw [ht]; decide
      have hstack : Resolver.resolveStackedOn
          (fun s3 p3 => Resolver.resolvePosition tr fuel s3 p3) s part c =
          some (Vec3.zero, s) := by
        unfold Resolver.resolveStackedOn
        rcases hcase with hpp | ⟨q, hq, hql⟩
        · rw [hpp]
        · rw [hq]
          dsimp only
          rw [hql]
      rw [if_neg hF, if_pos ht, hstack]
    · have hF : ¬ c.type = "Fixed" := by rw [ht]; decide
      have hS : ¬ c.type = "StackedOn" := by rw [ht]; decide
      have hthread : Resolver.resolveThreaded
          (fun s3 p3 => Resolver.resolvePosition tr fuel s3 p3) s part c =
          some (Vec3.zero, s) := by
        unfold Resolver.resolveThreaded
        rcases hcase with hpp | ⟨q, hq, hql⟩
        · rw [hpp]
        · rw [hq]
          dsimp only
          rw [hql]
      rw [if_neg hF, if_neg hS, if_pos ht, hthread]
    · have hF : ¬ c.type = "Fixed" := by rw [ht]; decide
      have hS : ¬ c.type = "StackedOn" := by rw [ht]; decide
      have hT : ¬ c.type = "Threaded" := by rw [ht]; decide
      have hradial : Resolver.resolveRadial tr
          (fun s3 p3 => Resolver.resolvePosition tr fuel s3 p3) s part c =
          some (Vec3.zero, s) := by
        unfold Resolver.resolveRadial
        rcases hcase with hpp | ⟨q, hq, hql⟩
        · rw [hpp]
        · rw [hq]
          dsimp only
          rw [hql]
      rw [if_neg hF, if_neg hS, if_neg hT, if_pos ht, hradial]
    · rw [if_neg h1, if_neg h2, if_neg h3, if_neg h4]
  · intro fuel2 s3 v hcache
    rw [Resolver.resolvePosition, hcache]
  · intro c2 p0 hreg hnd
    unfold Resolver.updatePartConstraint
    have hreg2 : SMap.lookup part.name
        ({ s with resolvedPositions :=
          SMap.insert part.name Vec3.zero s.resolvedPositions } : Resolver).parts =
        some p0 := hreg
    rw [hreg2]
    exact SMap.lookup_eraseKey_self _ _ (SMap.keysNodup_insert _ _ _ hnd)
  · intro pn mesh sc
    rfl
  · intro sc
    rfl

/-- Witness for C10: a part with unknown constraint type tag resolves to the
cached zero vector, the second call returns the cached entry unchanged, and
updatePartConstraint on the part clears it. -/
theorem c10_witness :
    Resolver.resolvePosition trigW 1 weldStateW weldPartW =
      some (Vec3.zero,
        { weldStateW with resolvedPositions := [(nameWeld, Vec3.zero)] }) ∧
    Resolver.resolvePosition trigW 5
        { weldStateW with resolvedPositions := [(nameWeld, Vec3.zero)] } weldPartW =
      some (Vec3.zero,
        { weldStateW with resolvedPositions := [(nameWeld, Vec3.zero)] }) ∧
    SMap.lookup nameWeld
      (({ weldStateW with resolvedPositions := [(nameWeld, Vec3.zero)] }
        : Resolver).updatePartConstraint nameWeld newConstraintW).resolvedPositions =
      none := by
  obtain ⟨h1, h2, h3, -, -, -, -⟩ := c10_error_caches_zero trigW 0 weldStateW
    weldPartW { type := "Weld" } (by decide) rfl
    (Or.inr (Or.inr (Or.inr ⟨by decide, by decide, by decide, by decide⟩)))
  exact ⟨h1, h2 4 _ Vec3.zero (by decide), h3 newConstraintW weldPartW (by decide) (by decide)⟩

theorem SMap.lookup_insert_cases {A : Type} {k n : String} {v b : A} :
    ∀ {m : List (String × A)}, SMap.lookup n (SMap.insert k v m) = some b →
      b = v ∨ SMap.lookup n m = some b
  | [], h => by
    rw [SMap.insert] at h
    by_cases hkn : k = n
    · simp only [SMap.lookup, hkn, if_pos rfl] at h
      exact Or.inl (Option.some.inj h).symm
    · simp only [SMap.lookup, hkn, if_false] at h
      exact Option.noConfusion h
  | e :: rest, h => by
    by_cases he : e.1 = k
    · rw [SMap.insert, if_pos he] at h
      by_cases hkn : k = n
      · simp only [SMap.lookup, hkn, if_pos rfl] at h
        exact Or.inl (Option.some.inj h).symm
      · simp only [SMap.lookup, hkn, if_false] at h
        have hen : ¬ e.1 = n := by rw [he]; exact hkn
        rw [SMap.lookup, if_neg hen]
        exact Or.inr h
    · rw [SMap.insert, if_neg he] at h
      by_cases hen : e.1 = n
      · simp only [SMap.lookup, hen, if_pos rfl] at h
        rw [SMap.lookup, if_pos hen]
        exact Or.inr h
      · simp only [SMap.lookup, hen, if_false] at h
        rw [SMap.lookup, if_neg hen]
        exact SMap.lookup_insert_cases h

theorem getD_set_ne {A : Type} (v d : A) :
    ∀ (l : List A) (i j : Nat), i ≠ j → (l.set i v).getD j d = l.getD j d
  | [], i, j, _ => by simp
  | a :: rest, 0, 0, h => absurd rfl h
  | a :: rest, 0, j + 1, _ => by simp [List.getD]
  | a :: rest, i + 1, 0, _ => by simp [List.getD]
  | a :: rest, i + 1, j + 1, h => by
    simp only [List.set, List.getD_cons_succ]
    exact getD_set_ne v d rest i j (fun hh => h (by rw [hh]))

theorem getD_set_self {A : Type} (v d : A) :
    ∀ (l : List A) (i : Nat), i < l.length → (l.set i v).getD i d = v
  | [], i, h => by simp at h
  | a :: rest, 0, _ => rfl
  | a :: rest, i + 1, h => by
    simp only [List.set, List.getD_cons_succ]
    exact getD_set_self v d rest i (by simpa using h)

theorem getD_append_left {A : Type} (d : A) :
    ∀ (l l2 : List A) (i : Nat), i < l.length → (l ++ l2).getD i d = l.getD i d
  | [], l2, i, h => by simp at h
  | a :: rest, l2, 0, _ => rfl
  | a :: rest, l2, i + 1, h => by
    simp only [List.cons_append, List.getD_cons_succ]
    exact getD_append_left d rest l2 i (by simpa using h)

theorem RefState.resolveStackedOn_inv
    {recur : RefState → MachineryPart → Option (Nat × RefState)}
    (hrec : ∀ s p a s2, recur s p = some (a, s2) → RefState.vcacheBound s →
      RefState.vcacheBound s2 ∧ s2.parts = s.parts ∧
      s2.boundingBoxCache = s.boundingBoxCache ∧ s2.bheap = s.bheap ∧
      s.vheap.length ≤ s2.vheap.length)
    {s : RefState} {part : MachineryPart} {c : AssemblyConstraint} {v : Vec3}
    {s1 : RefState}
    (h : RefState.resolveStackedOn recur s part c = some (v, s1))
    (hv : RefState.vcacheBound s) :
    RefState.vcacheBound s1 ∧ s1.parts = s.parts ∧
    s1.boundingBoxCache = s.boundingBoxCache ∧ s1.bheap = s.bheap ∧
    s.vheap.length ≤ s1.vheap.length := by
  unfold RefState.resolveStackedOn at h
  repeat' split at h
  all_goals try (exact Option.noConfusion h)
  all_goals simp only [Option.some.injEq, Prod.mk.injEq] at h
  all_goals obtain ⟨-, hs⟩ := h
  all_goals subst hs
  all_goals first
    | exact ⟨hv, rfl, rfl, rfl, Nat.le_refl _⟩
    | exact hrec _ _ _ _ (by assumption) hv

theorem RefState.resolveThreaded_inv
    {recur : RefState → MachineryPart → Option (Nat × RefState)}
    (hrec : ∀ s p a s2, recur s p = some (a, s2) → RefState.vcacheBound s →
      RefState.vcacheBound s2 ∧ s2.parts = s.parts ∧
      s2.boundingBoxCache = s.boundingBoxCache ∧ s2.bheap = s.bheap ∧
      s.vheap.length ≤ s2.vheap.length)
    {s : RefState} {part : MachineryPart} {c : AssemblyConstraint} {v : Vec3}
    {s1 : RefState}
    (h : RefState.resolveThreaded recur s part c = some (v, s1))
    (hv : RefState.vcacheBound s) :
    RefState.vcacheBound s1 ∧ s1.parts = s.parts ∧
    s1.boundingBoxCache = s.boundingBoxCache ∧ s1.bheap = s.bheap ∧
    s.vheap.length ≤ s1.vheap.length := by
  unfold RefState.resolveThreaded at h
  repeat' split at h
  all_goals try (exact Option.noConfusion h)
  all_goals simp only [Option.some.injEq, Prod.mk.injEq] at h
  all_goals obtain ⟨-, hs⟩ := h
  all_goals subst hs
  all_goals first
    | exact ⟨hv, rfl, rfl, rfl, Nat.le_refl _⟩
    | exact hrec _ _ _ _ (by assumption) hv

theorem RefState.resolveRadial_inv {tr : Trig}
    {recur : RefState → MachineryPart → Option (Nat × RefState)}
    (hrec : ∀ s p a s2, recur s p = some (a, s2) → RefState.vcacheBound s →
      RefState.vcacheBound s2 ∧ s2.parts = s.parts ∧
      s2.boundingBoxCache = s.boundingBoxCache ∧ s2.bheap = s.bheap ∧
      s.vheap.length ≤ s2.vheap.length)
    {s : RefState} {part : MachineryPart} {c : AssemblyConstraint} {v : Vec3}
    {s1 : RefState}
    (h : RefState.resolveRadial tr recur s part c = some (v, s1))
    (hv : RefState.vcacheBound s) :
    RefState.vcacheBound s1 ∧ s1.parts = s.parts ∧
    s1.boundingBoxCache = s.boundingBoxCache ∧ s1.bheap = s.bheap ∧
    s.vheap.length ≤ s1.vheap.length := by
  unfold RefState.resolveRadial at h
  repeat' split at h
  all_goals try (exact Option.noConfusion h)
  all_goals simp only [Option.some.injEq, Prod.mk.injEq] at h
  all_goals obtain ⟨-, hs⟩ := h
  all_goals subst hs
  all_goals first
    | exact ⟨hv, rfl, rfl, rfl, Nat.le_refl _⟩
    | exact hrec _ _ _ _ (by assumption) hv

theorem SMap.mem_insert_cases {A : Type} {k : String} {v : A} {e : String × A} :
    ∀ {m : List (String × A)}, e ∈ SMap.insert k v m → e = (k, v) ∨ e ∈ m
  | [], h => by
    rw [SMap.insert] at h
    simp only [List.mem_singleton] at h
    exact Or.inl h
  | f :: rest, h => by
    by_cases hf : f.1 = k
    · rw [SMap.insert, if_pos hf] at h
      rcases List.mem_cons.mp h with h2 | h2
      · exact Or.inl h2
      · exact Or.inr (List.mem_cons_of_mem _ h2)
    · rw [SMap.insert, if_neg hf] at h
      rcases List.mem_cons.mp h with h2 | h2
      · exact Or.inr (List.mem_cons.mpr (Or.inl h2))
      · rcases SMap.mem_insert_cases h2 with h3 | h3
        · exact Or.inl h3
        · exact Or.inr (List.mem_cons_of_mem _ h3)

theorem RefState.finishStep (s : RefState) (part : MachineryPart) (position : Vec3)
    (s1 : RefState)
    (hv1 : RefState.vcacheBound s1) (hp : s1.parts = s.parts)
    (hb : s1.boundingBoxCache = s.boundingBoxCache)
    (hh : s1.bheap = s.bheap) (hl : s.vheap.length ≤ s1.vheap.length) :
    RefState.vcacheBound
      { s1 with
        vheap := (s1.vheap ++ [position]) ++ [position]
        resolvedPositions :=
          SMap.insert part.name s1.vheap.length s1.resolvedPositions } ∧
    (s1.vheap ++ [position]).length <
      (({ s1 with
        vheap := (s1.vheap ++ [position]) ++ [position]
        resolvedPositions :=
          SMap.insert part.name s1.vheap.length s1.resolvedPositions } : RefState)).vheap.length ∧
    (∀ n b, SMap.lookup n
        (SMap.insert part.name s1.vheap.length s1.resolvedPositions) = some b →
      b < (s1.vheap ++ [position]).length) ∧
    s1.parts = s.parts ∧ s1.boundingBoxCache = s.boundingBoxCache ∧
    s1.bheap = s.bheap ∧
    s.vheap.length ≤ ((s1.vheap ++ [position]) ++ [position]).length := by
  refine ⟨?_, ?_, ?_, hp, hb, hh, ?_⟩
  · intro e he
    simp only [List.length_append, List.length_singleton]
    rcases SMap.mem_insert_cases he with h2 | h2
    · rw [h2]
      omega
    · have := hv1 _ h2
      omega
  · simp only [List.length_append, List.length_singleton]
    omega
  · intro n b hb2
    simp only [List.length_append, List.length_singleton]
    rcases SMap.lookup_insert_cases hb2 with h2 | h2
    · omega
    · have := hv1 _ (SMap.lookup_mem h2)
      omega
  · simp only [List.length_append, List.length_singleton]
    omega

theorem RefState.resolvePosition_fresh (tr : Trig) :
    ∀ fuel {s : RefState} {part : MachineryPart} {a : Nat} {s2 : RefState},
      RefState.resolvePosition tr fuel s part = some (a, s2) →
      RefState.vcacheBound s →
      RefState.vcacheBound s2 ∧ a < s2.vheap.length ∧
      (∀ n b, SMap.lookup n s2.resolvedPositions = some b → b < a) ∧
      s2.parts = s.parts ∧ s2.boundingBoxCache = s.boundingBoxCache ∧
      s2.bheap = s.bheap ∧ s.vheap.length ≤ s2.vheap.length := by
  intro fuel
  induction fuel with
  | zero =>
    intro s part a s2 h hv
    rw [RefState.resolvePosition] at h
    exact Option.noConfusion h
  | succ fuel ih =>
    intro s part a s2 h hv
    have hrec : ∀ (s3 : RefState) (p : MachineryPart) (a3 : Nat) (s4 : RefState),
        RefState.resolvePosition tr fuel s3 p = some (a3, s4) →
        RefState.vcacheBound s3 →
        RefState.vcacheBound s4 ∧ s4.parts = s3.parts ∧
        s4.boundingBoxCache = s3.boundingBoxCache ∧ s4.bheap = s3.bheap ∧
        s3.vheap.length ≤ s4.vheap.length := by
      intro s3 p a3 s4 h3 hv3
      obtain ⟨x1, x2, x3, x4, x5, x6, x7⟩ := ih h3 hv3
      exact ⟨x1, x4, x5, x6, x7⟩
    rw [RefState.resolvePosition] at h
    split at h
    · dsimp only [RefState.allocV, RefState.readV] at h
      simp only [Option.some.injEq, Prod.mk.injEq] at h
      obtain ⟨ha, hs⟩ := h
      subst hs
      subst ha
      refine ⟨?_, ?_, ?_, rfl, rfl, rfl, ?_⟩
      · intro e he
        have := hv e he
        simp only [List.length_append, List.length_singleton]
        omega
      · simp only [List.length_append, List.length_singleton]
        omega
      · intro n b hb
        exact hv _ (SMap.lookup_mem hb)
      · simp only [List.length_append, List.length_singleton]
        omega
    · split at h
      · dsimp only [RefState.allocV] at h
        simp only [Option.some.injEq, Prod.mk.injEq] at h
        obtain ⟨ha, hs⟩ := h
        subst hs
        subst ha
        exact RefState.finishStep s part _ s hv rfl rfl rfl (Nat.le_refl _)
      · rename_i c hc
        simp only [] at h
        by_cases hF : c.type = "Fixed"
        · rw [if_pos hF] at h
          dsimp only [RefState.allocV] at h
          simp only [Option.some.injEq, Prod.mk.injEq] at h
          obtain ⟨ha, hs⟩ := h
          subst hs
          subst ha
          exact RefState.finishStep s part _ s hv rfl rfl rfl (Nat.le_refl _)
        · rw [if_neg hF] at h
          by_cases hS : c.type = "StackedOn"
          · rw [if_pos hS] at h
            split at h
            · exact Option.noConfusion h
            · rename_i position s1 heq
              obtain ⟨hv1, hp, hb, hh, hl⟩ :=
                RefState.resolveStackedOn_inv hrec heq hv
              dsimp only [RefState.allocV] at h
              simp only [Option.some.injEq, Prod.mk.injEq] at h
              obtain ⟨ha, hs⟩ := h
              subst hs
              subst ha
              exact RefState.finishStep s part _ s1 hv1 hp hb hh hl
          · rw [if_neg hS] at h
            by_cases hT : c.type = "Threaded"
            · rw [if_pos hT] at h
              split at h
              · exact Option.noConfusion h
              · rename_i position s1 heq
                obtain ⟨hv1, hp, hb, hh, hl⟩ :=
                  RefState.resolveThreaded_inv hrec heq hv
                dsimp only [RefState.allocV] at h
                simp only [Option.some.injEq, Prod.mk.injEq] at h
                obtain ⟨ha, hs⟩ := h
                subst hs
                subst ha
                exact RefState.finishStep s part _ s1 hv1 hp hb hh hl
            · rw [if_neg hT] at h
              by_cases hR : c.type = "RadialAroundCenter"
              · rw [if_pos hR] at h
                split at h
                · exact Option.noConfusion h
                · rename_i position s1 heq
                  obtain ⟨hv1, hp, hb, hh, hl⟩ :=
                    RefState.resolveRadial_inv hrec heq hv
                  dsimp only [RefState.allocV] at h
                  simp only [Option.some.injEq, Prod.mk.injEq] at h
                  obtain ⟨ha, hs⟩ := h
                  subst hs
                  subst ha
                  exact RefState.finishStep s part _ s1 hv1 hp hb hh hl
              · rw [if_neg hR] at h
                dsimp only [RefState.allocV] at h
                simp only [Option.some.injEq, Prod.mk.injEq] at h
                obtain ⟨ha, hs⟩ := h
                subst hs
                subst ha
                exact RefState.finishStep s part _ s hv rfl rfl rfl (Nat.le_refl _)

theorem RefState.getAllBoundingBoxesGo_fresh :
    ∀ (L : List (String × Nat)) (s : RefState),
      (RefState.getAllBoundingBoxesGo L s).2.boundingBoxCache = s.boundingBoxCache ∧
      s.bheap.length ≤ (RefState.getAllBoundingBoxesGo L s).2.bheap.length ∧
      (∀ e ∈ (RefState.getAllBoundingBoxesGo L s).1,
        s.bheap.length ≤ e.2.1 ∧
        e.2.1 < (RefState.getAllBoundingBoxesGo L s).2.bheap.length)
  | [], s => by
    refine ⟨rfl, Nat.le_refl _, ?_⟩
    intro e he
    simp [RefState.getAllBoundingBoxesGo] at he
  | e :: rest, s => by
    obtain ⟨h1, h2, h3⟩ := RefState.getAllBoundingBoxesGo_fresh rest
      { s with bheap := s.bheap ++ [s.readB e.2] }
    refine ⟨?_, ?_, ?_⟩
    · exact h1
    · refine Nat.le_trans ?_ h2
      simp only [List.length_append, List.length_singleton]
      omega
    · intro e2 he2
      rcases List.mem_cons.mp he2 with he2 | he2
      · subst he2
        refine ⟨Nat.le_refl _, ?_⟩
        refine Nat.lt_of_lt_of_le ?_ h2
        simp only [List.length_append, List.length_singleton]
        omega
      · obtain ⟨ha, hb⟩ := h3 e2 he2
        refine ⟨Nat.le_trans ?_ ha, hb⟩
        simp only [List.length_append, List.length_singleton]
        omega

theorem RefState.resolveAllGo_vcacheBound (tr : Trig) (fuel : Nat) :
    ∀ (L : List (String × MachineryPart)) {s s2 : RefState},
      RefState.resolveAllGo tr fuel L s = some s2 →
      RefState.vcacheBound s → RefState.vcacheBound s2
  | [], s, s2, h, hv => by
    rw [RefState.resolveAllGo] at h
    injection h with h
    subst h
    exact hv
  | e :: rest, s, s2, h, hv => by
    rw [RefState.resolveAllGo] at h
    split at h
    · exact Option.noConfusion h
    · rename_i a s1 heq
      exact RefState.resolveAllGo_vcacheBound tr fuel rest h
        (RefState.resolvePosition_fresh tr fuel heq hv).1

theorem RefState.readV_writeV_ne (s : RefState) (a b : Nat) (v : Vec3) (h : a ≠ b) :
    (s.writeV a v).readV b = s.readV b :=
  getD_set_ne v Vec3.zero s.vheap a b h

theorem RefState.readV_writeV_self (s : RefState) (a : Nat) (v : Vec3)
    (h : a < s.vheap.length) : (s.writeV a v).readV a = v :=
  getD_set_self v Vec3.zero s.vheap a h

theorem RefState.readB_writeB_ne (s : RefState) (a b : Nat) (v : Box3) (h : a ≠ b) :
    (s.writeB a v).readB b = s.readB b :=
  getD_set_ne v ⟨Vec3.zero, Vec3.zero⟩ s.bheap a b h

theorem RefState.readB_writeB_self (s : RefState) (a : Nat) (v : Box3)
    (h : a < s.bheap.length) : (s.writeB a v).readB a = v :=
  getD_set_self v ⟨Vec3.zero, Vec3.zero⟩ s.bheap a h

/-- C6 counterexample: getBoundingBox returns the live cached box cell, and
the map returned by resolveAll holds the live cached vector cells, so a
caller mutating either one changes what subsequent queries observe. -/
theorem c6_counterexample :
    (RefState.getBoundingBox refBoxStateW nameBase = some 0 ∧
      (refBoxStateW.writeB 0 mutatedBoxW).getBoundingBox nameBase = some 0 ∧
      (refBoxStateW.writeB 0 mutatedBoxW).readB 0 = mutatedBoxW ∧
      refBoxStateW.readB 0 = baseBoxW ∧ mutatedBoxW ≠ baseBoxW) ∧
    (RefState.resolveAll trigW 1 refResolveStateW = some ([(nameBase, 0)], refAfterW) ∧
      SMap.lookup nameBase refAfterW.resolvedPositions = some 0 ∧
      (RefState.resolvePosition trigW 1 (refAfterW.writeV 0 ⟨9, 9, 9⟩) refPartW).map
          (fun r => RefState.readV r.2 r.1) = some ⟨9, 9, 9⟩ ∧
      (⟨9, 9, 9⟩ : Vec3) ≠ ⟨5, 0, 0⟩ ∧
      (RefState.resolvePosition trigW 1 refAfterW refPartW).map
          (fun r => RefState.readV r.2 r.1) = some ⟨5, 0, 0⟩) := by
  refine ⟨⟨by decide, by decide, by decide, by decide, by decide⟩,
    ⟨by decide, by decide, by decide, by decide, by decide⟩⟩

/-- C6 amended: resolvePosition returns a fresh clone cell, never aliased
with any cache entry, and getAllBoundingBoxes returns cloned box cells; but
getBoundingBox returns the cached box cell itself and resolveAll returns the
cache entries themselves, so mutations through those references reach the
cache. -/
theorem c6_clone_and_alias_contract (tr : Trig) :
    (∀ (fuel : Nat) (s : RefState) (part : MachineryPart) (a : Nat) (s2 : RefState),
      RefState.vcacheBound s →
      RefState.resolvePosition tr fuel s part = some (a, s2) →
      ∀ n b, SMap.lookup n s2.resolvedPositions = some b →
        b ≠ a ∧ ∀ w, (s2.writeV a w).readV b = s2.readV b) ∧
    (∀ s : RefState, RefState.bcacheBound s →
      ∀ e ∈ (RefState.getAllBoundingBoxes s).1,
        ∀ n b,
          SMap.lookup n (RefState.getAllBoundingBoxes s).2.boundingBoxCache = some b →
          e.2.1 ≠ b ∧
          ∀ w, ((RefState.getAllBoundingBoxes s).2.writeB e.2.1 w).readB b =
            (RefState.getAllBoundingBoxes s).2.readB b) ∧
    (∀ (s : RefState) (n : String) (a : Nat), s.getBoundingBox n = some a →
      (∀ w, (s.writeB a w).getBoundingBox n = some a) ∧
      (a < s.bheap.length → ∀ w, (s.writeB a w).readB a = w)) ∧
    (∀ (fuel : Nat) (s : RefState) (m : List (String × Nat)) (s2 : RefState),
      RefState.resolveAll tr fuel s = some (m, s2) →
      m = s2.resolvedPositions ∧
      (∀ n b, SMap.lookup n m = some b →
        b < s2.vheap.length ∧ ∀ w, (s2.writeV b w).readV b = w)) := by
  refine ⟨?_, ?_, ?_, ?_⟩
  · intro fuel s part a s2 hv h n b hb
    obtain ⟨-, -, hlt, -, -, -, -⟩ := RefState.resolvePosition_fresh tr fuel h hv
    have hba := hlt n b hb
    refine ⟨by omega, ?_⟩
    intro w
    exact RefState.readV_writeV_ne s2 a b w (by omega)
  · intro s hb e he n b hbb
    obtain ⟨h1, -, h3⟩ :=
      RefState.getAllBoundingBoxesGo_fresh s.boundingBoxCache s
    obtain ⟨hge, -⟩ := h3 e he
    have hbb2 : SMap.lookup n
        (RefState.getAllBoundingBoxesGo s.boundingBoxCache s).2.boundingBoxCache =
        some b := hbb
    rw [h1] at hbb2
    have hblt : b < s.bheap.length := hb _ (SMap.lookup_mem hbb2)
    refine ⟨by omega, ?_⟩
    intro w
    exact RefState.readB_writeB_ne _ e.2.1 b w (by omega)
  · intro s n a h
    refine ⟨fun w => h, ?_⟩
    intro hlt w
    exact RefState.readB_writeB_self s a w hlt
  · intro fuel s m s2 h
    unfold RefState.resolveAll at h
    split at h
    · exact Option.noConfusion h
    · rename_i s1 hgo
      simp only [Option.some.injEq, Prod.mk.injEq] at h
      obtain ⟨hm, hs⟩ := h
      subst hs
      subst hm
      have hvb := RefState.resolveAllGo_vcacheBound tr fuel s.parts hgo
        (fun e he => absurd he (List.not_mem_nil e))
      refine ⟨rfl, ?_⟩
      intro n b hb
      have hblt := hvb _ (SMap.lookup_mem hb)
      exact ⟨hblt, fun w => RefState.readV_writeV_self _ b w hblt⟩

/-- Witness for the amended C6: on the concrete one-part reference state the
resolved clone cell is distinct from the cache cell and mutating it leaves
the cached value intact; the concrete cached box cell is returned live by
getBoundingBox. -/
theorem c6_witness :
    RefState.vcacheBound refResolveStateW ∧
    (∀ n b, SMap.lookup n refAfterW.resolvedPositions = some b →
      b ≠ 1 ∧ ∀ w, (refAfterW.writeV 1 w).readV b = refAfterW.readV b) ∧
    (∀ w, (refBoxStateW.writeB 0 w).getBoundingBox nameBase = some 0) := by
  obtain ⟨h1, -, h3, -⟩ := c6_clone_and_alias_contract trigW
  refine ⟨by decide, ?_, ?_⟩
  · exact h1 1 refResolveStateW refPartW 1 refAfterW (by decide) (by decide)
  · exact (h3 refBoxStateW nameBase 0 (by decide)).1

end Simvex
